import Mathlib

/-!
Verification development for the harvesting pipeline of main_ideas.py:
identifier extraction, smart pagination, order-preserving deduplication,
batched record resolution, and flattening of nested records into a table.

JSON values are embedded as the inductive JVal; Python dicts are
association lists with unique keys in insertion order; Python ints are
embedded as Int.  Fallible steps (network, JSON parsing, uncaught Python
exceptions) are embedded with Option and Except.  The constants mirror
the CONFIG section of the script.
-/

/-- A JSON value as handled by the script. -/
inductive JVal where
  | null
  | bool (b : Bool)
  | num (n : Int)
  | str (s : String)
  | arr (xs : List JVal)
  | obj (fields : List (String × JVal))

/-- Python truthiness of a JSON value (bool(v)). -/
def JVal.truthy : JVal → Bool
  | .null => false
  | .bool b => b
  | .num n => n != 0
  | .str s => s != ""
  | .arr xs => !xs.isEmpty
  | .obj fs => !fs.isEmpty

/-- dict.get(k): first binding of the key, None when absent. -/
def jGet (fields : List (String × JVal)) (k : String) : Option JVal :=
  (fields.find? (fun p => p.1 == k)).map (fun p => p.2)

/-- Truthiness of a Python value that may be None. -/
def optTruthy : Option JVal → Bool
  | none => false
  | some v => v.truthy

/-- Python a or b: a when truthy, otherwise b (None embeds as none). -/
def pyOr (a b : Option JVal) : Option JVal :=
  if optTruthy a then a else b

/-- dict assignment d[k] = v: overwrite in place when the key exists,
append at the end otherwise (insertion-order semantics). -/
def setKey (m : List (String × JVal)) (k : String) (v : JVal) : List (String × JVal) :=
  if m.any (fun p => p.1 == k) then m.map (fun p => if p.1 == k then (k, v) else p)
  else m ++ [(k, v)]

/-- dict.update(other): assign every binding of other in order. -/
def dUpdate (m other : List (String × JVal)) : List (String × JVal) :=
  other.foldl (fun acc p => setKey acc p.1 p.2) m

/-- str.strip on a character list: drop whitespace at both ends. -/
def stripChars (l : List Char) : List Char :=
  ((l.dropWhile Char.isWhitespace).reverse.dropWhile Char.isWhitespace).reverse

/-- Python str.strip(). -/
def pyStrip (s : String) : String := String.mk (stripChars s.data)

/-- Code-point comparison of character lists, as Python compares strings. -/
def charListLe : List Char → List Char → Bool
  | [], _ => true
  | _ :: _, [] => false
  | a :: as, b :: bs =>
    if a.toNat < b.toNat then true
    else if b.toNat < a.toNat then false
    else charListLe as bs

/-- Python string comparison (lexicographic on code points). -/
def strLe (a b : String) : Bool := charListLe a.data b.data

/-- The comparison as a relation, for sorting. -/
def strLeRel : String → String → Prop := fun a b => strLe a b = true

instance : DecidableRel strLeRel := fun _ _ => inferInstanceAs (Decidable (_ = true))

/-- Escaping of one character inside a JSON string literal
(json.dumps with ensure_ascii False; uncommon control characters are
carried through unchanged). -/
def escapeChar (c : Char) : String :=
  if c = '"' then "\\\"" else if c = '\\' then "\\\\"
  else if c = '\n' then "\\n" else if c = '\t' then "\\t" else if c = '\r' then "\\r"
  else String.mk [c]

/-- JSON string literal text. -/
def jStrLit (s : String) : String :=
  "\"" ++ String.join (s.data.map escapeChar) ++ "\""

/-- json.dumps(v, ensure_ascii=False) with default separators. -/
def jsonDumps : JVal → String
  | .null => "null"
  | .bool true => "true"
  | .bool false => "false"
  | .num n => toString n
  | .str s => jStrLit s
  | .arr xs => "[" ++ String.intercalate ", " (xs.attach.map (fun x => jsonDumps x.1)) ++ "]"
  | .obj fs =>
      "\x7b" ++
        String.intercalate ", "
          (fs.attach.map (fun p => jStrLit p.1.1 ++ ": " ++ jsonDumps p.1.2)) ++ "\x7d"
termination_by v => sizeOf v
decreasing_by
  · have := List.sizeOf_lt_of_mem x.2
    simp_wf
    simp at this
    omega
  · have := List.sizeOf_lt_of_mem p.2
    simp_wf
    cases p with
    | mk q hq =>
      cases q with
      | mk a b =>
        simp at this ⊢
        omega

/-- Python str() of a scalar JSON value.  In the script it is only ever
applied to scalars (list elements that are neither dict nor list); the
container branches are given the JSON rendering for totality. -/
def pyStr : JVal → String
  | .null => "None"
  | .bool true => "True"
  | .bool false => "False"
  | .num n => toString n
  | .str s => s
  | .arr xs => jsonDumps (JVal.arr xs)
  | .obj fs => jsonDumps (JVal.obj fs)

/-- chunked_iterable: split a list into consecutive chunks of the given
size; the final chunk may be shorter.  Size zero yields no chunks, as
islice with size 0 produces an empty first chunk and stops the loop. -/
def chunked_iterable {α : Type} : List α → Nat → List (List α)
  | _, 0 => []
  | [], _ => []
  | x :: l, (n + 1) =>
    (x :: l).take (n + 1) :: chunked_iterable ((x :: l).drop (n + 1)) (n + 1)
termination_by l _ => l.length
decreasing_by
  simp_wf
  omega

/-- flatten_dict, with the accumulating dict out made explicit:
nested dicts recurse with the joined key, any other value is assigned. -/
def flatten_go : List (String × JVal) → String → List (String × JVal) → List (String × JVal)
  | [], _, out => out
  | (k, v) :: rest, parent, out =>
    let key := if parent = "" then k else parent ++ "." ++ k
    match v with
    | JVal.obj fs => flatten_go rest parent (dUpdate out (flatten_go fs key []))
    | _ => flatten_go rest parent (setKey out key v)
termination_by l _ _ => sizeOf l
decreasing_by all_goals (simp_wf <;> omega)

/-- flatten_dict(d, parent): keys of nested dicts joined with a dot. -/
def flatten_dict (d : List (String × JVal)) (parent : String) : List (String × JVal) :=
  flatten_go d parent []

/-- Is a value neither a dict nor a list (the all(...) test of
normalize_ideas). -/
def isScalar : JVal → Bool
  | JVal.obj _ => false
  | JVal.arr _ => false
  | _ => true

/-- One step of the per-idea loop of normalize_ideas: dispatch on the
shape of the value of one top-level field. -/
def flattenStep (flat : List (String × JVal)) (kv : String × JVal) : List (String × JVal) :=
  match kv.2 with
  | JVal.obj fs => dUpdate flat (flatten_dict fs kv.1)
  | JVal.arr xs =>
      if xs.all isScalar then
        setKey flat kv.1 (JVal.str (String.intercalate ", " (xs.map pyStr)))
      else
        setKey flat kv.1 (JVal.str (jsonDumps (JVal.arr xs)))
  | v => setKey flat kv.1 v

/-- The flat dict built for one idea record by normalize_ideas. -/
def flattenIdea (idea : List (String × JVal)) : List (String × JVal) :=
  idea.foldl flattenStep []

/-- The preferred column names of normalize_ideas. -/
def preferred : List String :=
  ["id", "canonicalId", "title", "status", "type", "createdDate", "creator"]

/-- The set keys of normalize_ideas: every key of every flattened row
(as a duplicate-free list; only membership is ever used). -/
def observedCols (ideas : List (List (String × JVal))) : List String :=
  ((ideas.map flattenIdea).foldl (fun acc r => acc ++ r.map Prod.fst) []).dedup

/-- normalize_ideas: flatten every record, build the ordered column
schema (preferred columns that occur, then the rest sorted), and
re-materialize every row against the schema with empty-string backfill. -/
def normalize_ideas (ideas : List (List (String × JVal))) :
    List String × List (List (String × JVal)) :=
  let rows := ideas.map flattenIdea
  let keys := observedCols ideas
  let rest := List.insertionSort strLeRel (keys.filter (fun k => decide (k ∉ preferred)))
  let ordered := preferred.filter (fun k => decide (k ∈ keys)) ++ rest
  (ordered, rows.map (fun r => ordered.map (fun k => (k, (jGet r k).getD (JVal.str "")))))

/-- Identifier extraction from one element of a top-level response
array: the get-chain over three field names, then the isinstance and
strip test. -/
def listElemId (el : JVal) : Option String :=
  match el with
  | JVal.obj fs =>
    match pyOr (pyOr (jGet fs "ticketCanonicalId") (jGet fs "canonicalId")) (jGet fs "id") with
    | some (JVal.str s) => if pyStrip s == "" then none else some s
    | _ => none
  | _ => none

/-- The per-hit value of the hits-of-hits branch.  it.get with default
empty dict is followed by an attribute access that raises when the
stored value is not a dict; the raise is embedded as Except.error. -/
def hitSourceVal (it : List (String × JVal)) : Except Unit (Option JVal) :=
  match (jGet it "_source").getD (JVal.obj []) with
  | JVal.obj src =>
    let v := pyOr (jGet src "ticketCanonicalId") (jGet src "canonicalId")
    .ok (if optTruthy v then v else pyOr (jGet it "ticketCanonicalId") (jGet it "canonicalId"))
  | _ => .error ()

/-- Walk the inner hits list, collecting identifiers in order and
propagating a raise. -/
def extractHits : List JVal → Except Unit (List String)
  | [] => .ok []
  | it :: rest =>
    match it with
    | JVal.obj fs =>
      match hitSourceVal fs with
      | .error e => .error e
      | .ok v =>
        match extractHits rest with
        | .error e => .error e
        | .ok tail =>
          match v with
          | some (JVal.str s) => .ok (if pyStrip s == "" then tail else s :: tail)
          | _ => .ok tail
    | _ => extractHits rest

/-- extract_canonical_ids_from_search_response: a top-level array of
objects, or a hits-of-hits container; anything else yields no
identifiers.  An uncaught exception is Except.error. -/
def extract_canonical_ids_from_search_response (resp_json : JVal) : Except Unit (List String) :=
  match resp_json with
  | JVal.arr els => .ok (els.filterMap listElemId)
  | JVal.obj fs =>
    match jGet fs "hits" with
    | some (JVal.obj hs) =>
      match jGet hs "hits" with
      | some (JVal.arr inner) => extractHits inner
      | _ => .ok []
    | _ => .ok []
  | _ => .ok []

/-- The seen-set walk of dedupe_preserve_order. -/
def dedupeGo (seen : List String) : List String → List String
  | [] => []
  | x :: rest => if x ∈ seen then dedupeGo seen rest else x :: dedupeGo (x :: seen) rest

/-- dedupe_preserve_order: keep the first occurrence of every
identifier. -/
def dedupe_preserve_order (seq : List String) : List String := dedupeGo [] seq

/-- CONFIG constants of the script. -/
def MAX_SINGLE_LIMIT : Nat := 2000

def PAGINATION_LIMIT : Nat := 1000

def SAFE_TOTAL_CAP : Nat := 20000

def BATCH_SIZE : Nat := 100

/-- The payload of a search request, reduced to the bindings the script
adds on top of the fixed base payload (each is a numeric field). -/
abbrev Payload := List (String × Nat)

/-- A search server: maps a payload to none (transport error) or a pair
of HTTP status and parse result of the body (none when the body is not
JSON). -/
abbrev SearchSrv := Payload → Option (Nat × Option JVal)

/-- Outcome of fetch_canonical_ids_smart: a sys.exit with a code, an
uncaught exception, or the returned identifier list. -/
inductive FetchOutcome where
  | exitCode (n : Nat)
  | crash
  | ids (l : List String)

/-- The offset-style pagination loop for one candidate key: check the
safety cap, request a page, stop on failure, unparseable body, an empty
page or a short page, otherwise extend and continue with an advanced
offset.  An extractor raise aborts the whole run (Except.error). -/
def offsetLoop (srv : SearchSrv) (key : String) (items : List String) (offset : Nat) :
    List Payload × Except Unit (List String) :=
  if hcap : SAFE_TOTAL_CAP ≤ items.length then ([], .ok items)
  else
    let pl : Payload := [("limit", PAGINATION_LIMIT), (key, offset)]
    match srv pl with
    | none => ([pl], .ok items)
    | some (code, body) =>
      if code ≠ 200 then ([pl], .ok items)
      else match body with
        | none => ([pl], .ok items)
        | some j =>
          match extract_canonical_ids_from_search_response j with
          | .error _ => ([pl], .error ())
          | .ok page_ids =>
            if hnil : page_ids = [] then ([pl], .ok items)
            else
              if hshort : page_ids.length < PAGINATION_LIMIT then ([pl], .ok (items ++ page_ids))
              else
                let r := offsetLoop srv key (items ++ page_ids) (offset + page_ids.length)
                (pl :: r.1, r.2)
termination_by SAFE_TOTAL_CAP - items.length
decreasing_by
  simp_wf
  simp [SAFE_TOTAL_CAP] at hcap ⊢
  simp [PAGINATION_LIMIT] at hshort
  omega

/-- The page-and-size pagination loop: same stop conditions, the page
number advances by one per full page. -/
def pageLoop (srv : SearchSrv) (size_key : String) (items : List String) (page : Nat) :
    List Payload × Except Unit (List String) :=
  if hcap : SAFE_TOTAL_CAP ≤ items.length then ([], .ok items)
  else
    let pl : Payload := [(size_key, PAGINATION_LIMIT), ("page", page)]
    match srv pl with
    | none => ([pl], .ok items)
    | some (code, body) =>
      if code ≠ 200 then ([pl], .ok items)
      else match body with
        | none => ([pl], .ok items)
        | some j =>
          match extract_canonical_ids_from_search_response j with
          | .error _ => ([pl], .error ())
          | .ok page_ids =>
            if hnil : page_ids = [] then ([pl], .ok items)
            else
              if hshort : page_ids.length < PAGINATION_LIMIT then ([pl], .ok (items ++ page_ids))
              else
                let r := pageLoop srv size_key (items ++ page_ids) (page + 1)
                (pl :: r.1, r.2)
termination_by SAFE_TOTAL_CAP - items.length
decreasing_by
  simp_wf
  simp [SAFE_TOTAL_CAP] at hcap ⊢
  simp [PAGINATION_LIMIT] at hshort
  omega

/-- Result of one pagination strategy: an uncaught exception, a
deduplicated result to return at once, or no gain. -/
inductive StratRes where
  | crash
  | found (l : List String)
  | noGain

/-- The keys tried by the offset-style strategy, in order. -/
def offset_keys : List String := ["offset", "start", "from"]

/-- The size-key and start-page combinations of the page-based
strategy, in loop order. -/
def pageConfigs : List (String × Nat) := [("size", 0), ("size", 1), ("limit", 0), ("limit", 1)]

/-- Strategy A: for each offset key run the loop from the collected
identifiers; accept the first key that strictly extends them, returning
the deduplicated items. -/
def strategyA (srv : SearchSrv) (collected : List String) :
    List String → List Payload × StratRes
  | [] => ([], .noGain)
  | key :: restKeys =>
    let r := offsetLoop srv key collected collected.length
    match r.2 with
    | .error _ => (r.1, .crash)
    | .ok items =>
      if collected.length < items.length then (r.1, .found (dedupe_preserve_order items))
      else
        let s := strategyA srv collected restKeys
        (r.1 ++ s.1, s.2)

/-- Strategy B: for each size-key and start-page combination run the
page loop; accept the first combination that strictly extends the
collected identifiers. -/
def strategyB (srv : SearchSrv) (collected : List String) :
    List (String × Nat) → List Payload × StratRes
  | [] => ([], .noGain)
  | (size_key, start_page) :: restCfgs =>
    let r := pageLoop srv size_key collected start_page
    match r.2 with
    | .error _ => (r.1, .crash)
    | .ok items =>
      if collected.length < items.length then (r.1, .found (dedupe_preserve_order items))
      else
        let s := strategyB srv collected restCfgs
        (r.1 ++ s.1, s.2)

/-- The last-resort single request with a larger bounded limit; its
body is wrapped in try/except, so even an extractor raise is absorbed. -/
def lastResort (srv : SearchSrv) (collected : List String) :
    List Payload × Option (List String) :=
  let lastLimit := min 5000 SAFE_TOTAL_CAP
  if lastLimit ≤ MAX_SINGLE_LIMIT then ([], none)
  else
    let pl : Payload := [("limit", lastLimit)]
    match srv pl with
    | some (200, some j) =>
      match extract_canonical_ids_from_search_response j with
      | .ok last_ids =>
          if collected.length < last_ids.length then ([pl], some (dedupe_preserve_order last_ids))
          else ([pl], none)
      | .error _ => ([pl], none)
    | _ => ([pl], none)

/-- fetch_canonical_ids_smart: the single probe request, the early
return below the probe limit, then strategies A and B and the last
resort; the request trace is returned alongside the outcome. -/
def fetch_canonical_ids_smart (srv : SearchSrv) : List Payload × FetchOutcome :=
  let pl : Payload := [("limit", MAX_SINGLE_LIMIT)]
  match srv pl with
  | none => ([pl], .exitCode 2)
  | some (code, body) =>
    if code = 401 then ([pl], .exitCode 3)
    else if code ≠ 200 then ([pl], .exitCode 4)
    else match body with
      | none => ([pl], .exitCode 5)
      | some j =>
        match extract_canonical_ids_from_search_response j with
        | .error _ => ([pl], .crash)
        | .ok first_batch =>
          if first_batch.length < MAX_SINGLE_LIMIT then
            ([pl], .ids (dedupe_preserve_order first_batch))
          else
            let a := strategyA srv first_batch offset_keys
            match a.2 with
            | .crash => (pl :: a.1, .crash)
            | .found l => (pl :: a.1, .ids l)
            | .noGain =>
              let b := strategyB srv first_batch pageConfigs
              match b.2 with
              | .crash => (pl :: a.1 ++ b.1, .crash)
              | .found l => (pl :: a.1 ++ b.1, .ids l)
              | .noGain =>
                let c := lastResort srv first_batch
                match c.2 with
                | some l => (pl :: a.1 ++ b.1 ++ c.1, .ids l)
                | none => (pl :: a.1 ++ b.1 ++ c.1, .ids (dedupe_preserve_order first_batch))

/-- A batch-fetch server: maps the list of target identifiers of one
chunk to none (transport error) or status and body parse result. -/
abbrev BatchSrv := List String → Option (Nat × Option JVal)

/-- Processing of one chunk of the batch loop in main: exit codes 6
(network), 7 (401), 8 (other status), 9 (unparseable body), 10
(unexpected shape); a dict body contributes its dict-shaped values, a
list body its dict-shaped items. -/
def processChunk (srv : BatchSrv) (chunk : List String) :
    Except Nat (List (List (String × JVal))) :=
  match srv chunk with
  | none => .error 6
  | some (code, body) =>
    if code = 401 then .error 7
    else if code ≠ 200 then .error 8
    else match body with
      | none => .error 9
      | some j =>
        match j with
        | JVal.obj fs => .ok (fs.filterMap (fun p =>
            match p.2 with
            | JVal.obj r => some r
            | _ => none))
        | JVal.arr xs => .ok (xs.filterMap (fun x =>
            match x with
            | JVal.obj r => some r
            | _ => none))
        | _ => .error 10

/-- The batch loop over all chunks: the trace of issued target lists,
and either the first fatal exit code or the concatenated idea records
in batch order. -/
def runBatches (srv : BatchSrv) : List (List String) → List (List String) × Except Nat (List (List (String × JVal)))
  | [] => ([], .ok [])
  | c :: cs =>
    match processChunk srv c with
    | .error e => ([c], .error e)
    | .ok ideas =>
      let r := runBatches srv cs
      (c :: r.1, match r.2 with
        | .error e => .error e
        | .ok restIdeas => .ok (ideas ++ restIdeas))

/-- The tail of main after the identifiers are fixed: run the batch
loop over the chunked identifiers; an empty result exits with 0,
otherwise the flattened table is produced. -/
def harvestFromChunks (srv : BatchSrv) (chunks : List (List String)) :
    Except Nat (List String × List (List (String × JVal))) :=
  match (runBatches srv chunks).2 with
  | .error e => .error e
  | .ok all_ideas =>
    if all_ideas.isEmpty then .error 0 else .ok (normalize_ideas all_ideas)

/-- The batch-and-flatten phase of main on a given identifier list. -/
def harvestIdeas (srv : BatchSrv) (canonical_ids : List String) :
    Except Nat (List String × List (List (String × JVal))) :=
  harvestFromChunks srv (chunked_iterable canonical_ids BATCH_SIZE)

/-! Concrete inputs used to instantiate the theorems below: identifier
strings made of letter a repeated, search-response objects carrying one
identifier, and small test servers. -/

/-- An identifier string: the letter a repeated n times. -/
def mkA (n : Nat) : String := String.mk (List.replicate n 'a')

/-- A search-response element with the identifier under
ticketCanonicalId. -/
def mkIdObj (s : String) : JVal := JVal.obj [("ticketCanonicalId", JVal.str s)]

/-- The distinct identifiers mkA (a+1) .. mkA (a+n). -/
def seg (a n : Nat) : List String := (List.range n).map (fun i => mkA (a + i + 1))

/-- A server answering the probe with more identifiers than the safety
cap and failing every other request. -/
def srvOver : SearchSrv := fun pl =>
  if pl = [("limit", MAX_SINGLE_LIMIT)] then
    some (200, some (JVal.arr ((seg 0 20001).map mkIdObj)))
  else none

/-- A server whose probe is full and whose first offset page repeats
1000 already-collected identifiers; the next page request fails. -/
def srvDup : SearchSrv := fun pl =>
  if pl = [("limit", MAX_SINGLE_LIMIT)] then
    some (200, some (JVal.arr ((seg 0 2000).map mkIdObj)))
  else if pl = [("limit", PAGINATION_LIMIT), ("offset", 2000)] then
    some (200, some (JVal.arr ((seg 0 1000).map mkIdObj)))
  else none

/-- A server with a full probe and two further offset pages before
running dry. -/
def srv3 : SearchSrv := fun pl =>
  if pl = [("limit", MAX_SINGLE_LIMIT)] then
    some (200, some (JVal.arr ((seg 0 2000).map mkIdObj)))
  else if pl = [("limit", PAGINATION_LIMIT), ("offset", 2000)] then
    some (200, some (JVal.arr ((seg 2000 1000).map mkIdObj)))
  else if pl = [("limit", PAGINATION_LIMIT), ("offset", 3000)] then
    some (200, some (JVal.arr ((seg 3000 1000).map mkIdObj)))
  else if pl = [("limit", PAGINATION_LIMIT), ("offset", 4000)] then
    some (200, some (JVal.arr []))
  else none

/-- A server answering the probe with three identifiers. -/
def srv1 : SearchSrv := fun pl =>
  if pl = [("limit", MAX_SINGLE_LIMIT)] then
    some (200, some (JVal.arr ((seg 0 3).map mkIdObj)))
  else none

/-- A batch server answering every chunk with an empty record list. -/
def srvEmptyBatches : BatchSrv := fun _ => some (200, some (JVal.arr []))

/-- A batch server failing with a transport error on the chunk
containing the single identifier y. -/
def srvFailY : BatchSrv := fun chunk =>
  if chunk = ["y"] then none else some (200, some (JVal.arr []))

/-- 250 distinct identifiers. -/
def ids250 : List String := seg 0 250

/-- The two demonstration records of the flattening example. -/
def demoIdeas : List (List (String × JVal)) :=
  [[("id", JVal.str "a"), ("meta", JVal.obj [("x", JVal.num 1)])],
   [("id", JVal.str "b"), ("tags", JVal.arr [JVal.str "p", JVal.str "q"])]]

/-! Helper lemmas on the code-point comparison. -/

theorem charListLe_cons_of_lt {a b : Char} (as bs : List Char) (h : a.toNat < b.toNat) :
    charListLe (a :: as) (b :: bs) = true := by
  simp [charListLe, h]

theorem charListLe_cons_of_gt {a b : Char} (as bs : List Char) (h : b.toNat < a.toNat) :
    charListLe (a :: as) (b :: bs) = false := by
  simp [charListLe, h, Nat.lt_asymm h]

theorem charListLe_cons_of_eq {a b : Char} (as bs : List Char) (h : a.toNat = b.toNat) :
    charListLe (a :: as) (b :: bs) = charListLe as bs := by
  simp [charListLe, h, Nat.lt_irrefl]

theorem charListLe_total : ∀ a b : List Char, charListLe a b = true ∨ charListLe b a = true
  | [], _ => Or.inl rfl
  | _ :: _, [] => Or.inr rfl
  | x :: xs, y :: ys => by
    rcases Nat.lt_trichotomy x.toNat y.toNat with h | h | h
    · exact Or.inl (charListLe_cons_of_lt xs ys h)
    · rw [charListLe_cons_of_eq xs ys h, charListLe_cons_of_eq ys xs h.symm]
      exact charListLe_total xs ys
    · exact Or.inr (charListLe_cons_of_lt ys xs h)

theorem charListLe_trans :
    ∀ a b c : List Char, charListLe a b = true → charListLe b c = true → charListLe a c = true
  | [], _, _, _, _ => rfl
  | _ :: _, [], _, h1, _ => by simp [charListLe] at h1
  | _ :: _, _ :: _, [], _, h2 => by simp [charListLe] at h2
  | x :: xs, y :: ys, z :: zs, h1, h2 => by
    rcases Nat.lt_trichotomy x.toNat y.toNat with hxy | hxy | hxy
    · rcases Nat.lt_trichotomy y.toNat z.toNat with hyz | hyz | hyz
      · exact charListLe_cons_of_lt xs zs (Nat.lt_trans hxy hyz)
      · exact charListLe_cons_of_lt xs zs (hyz ▸ hxy)
      · rw [charListLe_cons_of_gt ys zs hyz] at h2
        exact absurd h2 (by simp)
    · rcases Nat.lt_trichotomy y.toNat z.toNat with hyz | hyz | hyz
      · exact charListLe_cons_of_lt xs zs (hxy ▸ hyz)
      · rw [charListLe_cons_of_eq xs zs (hxy.trans hyz)]
        rw [charListLe_cons_of_eq xs ys hxy] at h1
        rw [charListLe_cons_of_eq ys zs hyz] at h2
        exact charListLe_trans xs ys zs h1 h2
      · rw [charListLe_cons_of_gt ys zs hyz] at h2
        exact absurd h2 (by simp)
    · rw [charListLe_cons_of_gt xs ys hxy] at h1
      exact absurd h1 (by simp)

instance : IsTotal String strLeRel := ⟨fun a b => charListLe_total a.data b.data⟩

instance : IsTrans String strLeRel :=
  ⟨fun a b c h1 h2 => charListLe_trans a.data b.data c.data h1 h2⟩

/-! Helper lemmas on dedupe_preserve_order. -/

theorem dedupeGo_sublist : ∀ (seen l : List String), List.Sublist (dedupeGo seen l) l
  | _, [] => List.Sublist.refl []
  | seen, x :: rest => by
    rw [dedupeGo]
    by_cases h : x ∈ seen
    · simp only [h, if_true]
      exact (dedupeGo_sublist seen rest).cons x
    · simp only [h, if_false]
      exact (dedupeGo_sublist (x :: seen) rest).cons₂ x

theorem mem_dedupeGo : ∀ (seen l : List String) (x : String),
    x ∈ dedupeGo seen l ↔ x ∈ l ∧ x ∉ seen
  | _, [], x => by simp [dedupeGo]
  | seen, y :: rest, x => by
    rw [dedupeGo]
    by_cases h : y ∈ seen
    · simp only [h, if_true]
      rw [mem_dedupeGo seen rest x]
      constructor
      · rintro ⟨h1, h2⟩
        exact ⟨List.mem_cons_of_mem y h1, h2⟩
      · rintro ⟨h1, h2⟩
        rcases List.mem_cons.mp h1 with rfl | h1
        · exact absurd h h2
        · exact ⟨h1, h2⟩
    · simp only [h, if_false]
      simp only [List.mem_cons, mem_dedupeGo (y :: seen) rest x]
      constructor
      · rintro (rfl | ⟨h1, h2⟩)
        · exact ⟨Or.inl rfl, h⟩
        · exact ⟨Or.inr h1, fun hx => h2 (Or.inr hx)⟩
      · rintro ⟨rfl | h1, h2⟩
        · exact Or.inl rfl
        · by_cases hxy : x = y
          · exact Or.inl hxy
          · exact Or.inr ⟨h1, by simp [List.mem_cons, hxy, h2]⟩

theorem dedupeGo_nodup : ∀ (seen l : List String), (dedupeGo seen l).Nodup
  | _, [] => List.nodup_nil
  | seen, x :: rest => by
    rw [dedupeGo]
    by_cases h : x ∈ seen
    · simp only [h, if_true]
      exact dedupeGo_nodup seen rest
    · simp only [h, if_false]
      refine List.nodup_cons.mpr ⟨?_, dedupeGo_nodup (x :: seen) rest⟩
      intro hx
      exact ((mem_dedupeGo (x :: seen) rest x).mp hx).2 (List.mem_cons_self x seen)

theorem dedupeGo_eq_self : ∀ (seen l : List String), l.Nodup → (∀ x ∈ l, x ∉ seen) →
    dedupeGo seen l = l
  | _, [], _, _ => rfl
  | seen, x :: rest, hnd, hdisj => by
    rw [dedupeGo]
    have hx : x ∉ seen := hdisj x (List.mem_cons_self x rest)
    simp only [hx, if_false]
    congr 1
    refine dedupeGo_eq_self (x :: seen) rest (List.nodup_cons.mp hnd).2 ?_
    intro y hy
    rw [List.mem_cons]
    rintro (rfl | hseen)
    · exact (List.nodup_cons.mp hnd).1 hy
    · exact hdisj y (List.mem_cons_of_mem x hy) hseen

theorem dedupe_sublist (l : List String) : List.Sublist (dedupe_preserve_order l) l :=
  dedupeGo_sublist [] l

theorem mem_dedupe (l : List String) (x : String) : x ∈ dedupe_preserve_order l ↔ x ∈ l := by
  rw [dedupe_preserve_order, mem_dedupeGo]
  simp

theorem dedupe_nodup (l : List String) : (dedupe_preserve_order l).Nodup :=
  dedupeGo_nodup [] l

theorem dedupe_eq_self_of_nodup {l : List String} (h : l.Nodup) :
    dedupe_preserve_order l = l :=
  dedupeGo_eq_self [] l h (by simp)

/-! Helper lemmas on chunked_iterable. -/

theorem chunked_nil {α : Type} (n : Nat) : chunked_iterable ([] : List α) n = [] := by
  cases n <;> simp [chunked_iterable]

theorem chunked_cons_of_ne {α : Type} (l : List α) (n : Nat) (hl : l ≠ []) (hn : n ≠ 0) :
    chunked_iterable l n = l.take n :: chunked_iterable (l.drop n) n := by
  obtain ⟨x, xs, rfl⟩ := List.exists_cons_of_ne_nil hl
  obtain ⟨m, rfl⟩ := Nat.exists_eq_succ_of_ne_zero hn
  rw [chunked_iterable]

/-! Helper lemmas on dict assignment and flattening. -/

theorem mem_setKey (m : List (String × JVal)) (k : String) (v : JVal) :
    ∀ p ∈ setKey m k v, p ∈ m ∨ p.1 = k := by
  intro p hp
  rw [setKey] at hp
  split at hp
  · obtain ⟨q, hq, hfq⟩ := List.mem_map.mp hp
    by_cases hqk : (q.1 == k) = true
    · right
      rw [if_pos hqk] at hfq
      rw [← hfq]
    · left
      rw [if_neg hqk] at hfq
      rw [← hfq]
      exact hq
  · rcases List.mem_append.mp hp with h | h
    · exact Or.inl h
    · right
      rcases List.mem_singleton.mp h with rfl
      rfl

theorem mem_dUpdate : ∀ (other m : List (String × JVal)), ∀ p ∈ dUpdate m other,
    p ∈ m ∨ ∃ q ∈ other, p.1 = q.1
  | [], _, _, hp => Or.inl hp
  | q0 :: rest, m, p, hp => by
    have hp2 : p ∈ dUpdate (setKey m q0.1 q0.2) rest := hp
    rcases mem_dUpdate rest (setKey m q0.1 q0.2) p hp2 with h | ⟨q, hq, hpq⟩
    · rcases mem_setKey m q0.1 q0.2 p h with h2 | h2
      · exact Or.inl h2
      · exact Or.inr ⟨q0, List.mem_cons_self _ _, h2⟩
    · exact Or.inr ⟨q, List.mem_cons_of_mem _ hq, hpq⟩

theorem dotJoin_ne_empty (parent k : String) : parent ++ "." ++ k ≠ "" := by
  intro h
  have h2 := congrArg String.length h
  rw [String.length_append, String.length_append] at h2
  have h3 : ("." : String).length = 1 := rfl
  have h4 : ("" : String).length = 0 := rfl
  omega

theorem flatten_go_prefix :
    ∀ (fs : List (String × JVal)) (parent : String) (out : List (String × JVal)),
      parent ≠ "" →
      (∀ p ∈ out, ∃ r, p.1 = parent ++ "." ++ r) →
      ∀ p ∈ flatten_go fs parent out, ∃ r, p.1 = parent ++ "." ++ r := by
  intro fs parent out
  induction fs, parent, out using flatten_go.induct with
  | case1 parent out =>
    intro _ hout p hp
    rw [flatten_go] at hp
    exact hout p hp
  | case2 k rest parent out key fs ihA ihB ihC =>
    intro hpar hout p hp
    have hkeyeq : key = parent ++ "." ++ k := dif_neg hpar
    rw [hkeyeq] at ihA ihC
    simp only [flatten_go] at hp
    rw [if_neg hpar] at hp
    refine ihC hpar ?_ p hp
    intro q hq
    rcases mem_dUpdate _ _ q hq with h | ⟨q2, hq2, hkey⟩
    · exact hout q h
    · obtain ⟨r, hr⟩ := ihA (dotJoin_ne_empty parent k) (by simp) q2 hq2
      refine ⟨k ++ ("." ++ r), ?_⟩
      rw [hkey, hr]
      simp [String.append_assoc]
  | case3 k v rest parent out key hne ih =>
    intro hpar hout p hp
    have hkeyeq : key = parent ++ "." ++ k := dif_neg hpar
    rw [hkeyeq] at ih
    have hstep : ∀ q ∈ setKey out (parent ++ "." ++ k) v, ∃ r, q.1 = parent ++ "." ++ r := by
      intro q hq
      rcases mem_setKey out (parent ++ "." ++ k) v q hq with h | h
      · exact hout q h
      · exact ⟨k, h⟩
    cases v with
    | obj fs => exact absurd rfl (hne fs)
    | null =>
      simp only [flatten_go] at hp
      rw [if_neg hpar] at hp
      exact ih hpar hstep p hp
    | bool b =>
      simp only [flatten_go] at hp
      rw [if_neg hpar] at hp
      exact ih hpar hstep p hp
    | num n =>
      simp only [flatten_go] at hp
      rw [if_neg hpar] at hp
      exact ih hpar hstep p hp
    | str s =>
      simp only [flatten_go] at hp
      rw [if_neg hpar] at hp
      exact ih hpar hstep p hp
    | arr xs =>
      simp only [flatten_go] at hp
      rw [if_neg hpar] at hp
      exact ih hpar hstep p hp

theorem flatten_dict_prefix (fs : List (String × JVal)) (parent : String) (hpar : parent ≠ "") :
    ∀ p ∈ flatten_dict fs parent, ∃ r, p.1 = parent ++ "." ++ r :=
  flatten_go_prefix fs parent [] hpar (by simp)

/-! Helper lemmas on the concrete identifier strings and on the
extractor applied to arrays of identifier objects. -/

theorem dropWhile_eq_self_of_false {p : Char → Bool} :
    ∀ l : List Char, (∀ c ∈ l, p c = false) → l.dropWhile p = l
  | [], _ => rfl
  | c :: cs, h => by
    rw [List.dropWhile_cons, h c (List.mem_cons_self c cs)]
    simp

theorem stripChars_eq_self {l : List Char} (h : ∀ c ∈ l, Char.isWhitespace c = false) :
    stripChars l = l := by
  rw [stripChars, dropWhile_eq_self_of_false l h,
    dropWhile_eq_self_of_false l.reverse (fun c hc => h c (List.mem_reverse.mp hc)),
    List.reverse_reverse]

theorem mkA_data (n : Nat) : (mkA n).data = List.replicate n 'a' := rfl

theorem mkA_ne_empty {n : Nat} (h : n ≠ 0) : mkA n ≠ "" := by
  intro he
  have h2 := congrArg String.data he
  rw [mkA_data] at h2
  have h3 := congrArg List.length h2
  simp at h3
  exact h h3

theorem mkA_injective : Function.Injective mkA := by
  intro a b h
  have h2 := congrArg String.data h
  rw [mkA_data, mkA_data] at h2
  have h3 := congrArg List.length h2
  simpa using h3

theorem pyStrip_mkA (n : Nat) : pyStrip (mkA n) = mkA n := by
  have h : ∀ c ∈ List.replicate n 'a', Char.isWhitespace c = false := by
    intro c hc
    rcases (List.mem_replicate.mp hc).2 with rfl
    decide
  rw [pyStrip, mkA_data, stripChars_eq_self h]
  rfl

theorem pyStrip_mkA_ne_empty {n : Nat} (h : n ≠ 0) : pyStrip (mkA n) ≠ "" := by
  rw [pyStrip_mkA]
  exact mkA_ne_empty h

theorem listElemId_mkIdObj (s : String) (hne : s ≠ "") (hstrip : pyStrip s ≠ "") :
    listElemId (mkIdObj s) = some s := by
  simp [listElemId, mkIdObj, jGet, pyOr, optTruthy, JVal.truthy, hne, hstrip]

theorem filterMap_listElemId_mkIdObj :
    ∀ l : List String, (∀ s ∈ l, s ≠ "" ∧ pyStrip s ≠ "") →
      List.filterMap listElemId (l.map mkIdObj) = l
  | [], _ => rfl
  | s :: rest, h => by
    rw [List.map_cons, List.filterMap_cons,
      listElemId_mkIdObj s (h s (List.mem_cons_self s rest)).1 (h s (List.mem_cons_self s rest)).2]
    rw [filterMap_listElemId_mkIdObj rest (fun t ht => h t (List.mem_cons_of_mem s ht))]

theorem extract_arr_mkIdObj (l : List String) (h : ∀ s ∈ l, s ≠ "" ∧ pyStrip s ≠ "") :
    extract_canonical_ids_from_search_response (JVal.arr (l.map mkIdObj)) = .ok l := by
  rw [extract_canonical_ids_from_search_response]
  rw [filterMap_listElemId_mkIdObj l h]

theorem extract_arr_nil :
    extract_canonical_ids_from_search_response (JVal.arr []) = .ok [] := rfl

theorem seg_length (a n : Nat) : (seg a n).length = n := by
  simp [seg]

theorem seg_good (a n : Nat) : ∀ s ∈ seg a n, s ≠ "" ∧ pyStrip s ≠ "" := by
  intro s hs
  obtain ⟨i, _, rfl⟩ := List.mem_map.mp hs
  exact ⟨mkA_ne_empty (by omega), pyStrip_mkA_ne_empty (by omega)⟩

theorem seg_nodup (a n : Nat) : (seg a n).Nodup := by
  refine List.Nodup.map ?_ (List.nodup_range n)
  intro i j h
  have := mkA_injective h
  omega

theorem seg_append (a m n : Nat) : seg a m ++ seg (a + m) n = seg a (m + n) := by
  rw [seg, seg, seg, List.range_add, List.map_append, List.map_map]
  congr 1
  refine List.map_congr_left ?_
  intro i _
  simp only [Function.comp]
  congr 1
  omega

theorem seg_subset {a m n : Nat} (h : m ≤ n) : ∀ x ∈ seg a m, x ∈ seg a n := by
  intro x hx
  obtain ⟨i, hi, rfl⟩ := List.mem_map.mp hx
  refine List.mem_map.mpr ⟨i, ?_, rfl⟩
  rw [List.mem_range] at hi ⊢
  omega

theorem seg_ne_nil {a n : Nat} (h : n ≠ 0) : seg a n ≠ [] := by
  refine List.ne_nil_of_length_pos ?_
  rw [seg_length]
  omega

/-! Step lemmas for the two pagination loops. -/

theorem offsetLoop_stop (srv : SearchSrv) (key : String) (items : List String) (offset : Nat)
    (h : SAFE_TOTAL_CAP ≤ items.length) :
    offsetLoop srv key items offset = ([], .ok items) := by
  rw [offsetLoop]
  rw [dif_pos h]

theorem offsetLoop_net (srv : SearchSrv) (key : String) (items : List String) (offset : Nat)
    (h : items.length < SAFE_TOTAL_CAP)
    (hs : srv [("limit", PAGINATION_LIMIT), (key, offset)] = none) :
    offsetLoop srv key items offset = ([[("limit", PAGINATION_LIMIT), (key, offset)]], .ok items) := by
  rw [offsetLoop, dif_neg (Nat.not_le.mpr h)]
  simp [hs]

theorem offsetLoop_badStatus (srv : SearchSrv) (key : String) (items : List String) (offset : Nat)
    (code : Nat) (body : Option JVal)
    (h : items.length < SAFE_TOTAL_CAP)
    (hs : srv [("limit", PAGINATION_LIMIT), (key, offset)] = some (code, body))
    (hcode : code ≠ 200) :
    offsetLoop srv key items offset = ([[("limit", PAGINATION_LIMIT), (key, offset)]], .ok items) := by
  rw [offsetLoop, dif_neg (Nat.not_le.mpr h)]
  simp [hs, hcode]

theorem offsetLoop_noParse (srv : SearchSrv) (key : String) (items : List String) (offset : Nat)
    (h : items.length < SAFE_TOTAL_CAP)
    (hs : srv [("limit", PAGINATION_LIMIT), (key, offset)] = some (200, none)) :
    offsetLoop srv key items offset = ([[("limit", PAGINATION_LIMIT), (key, offset)]], .ok items) := by
  rw [offsetLoop, dif_neg (Nat.not_le.mpr h)]
  simp [hs]

theorem offsetLoop_crash (srv : SearchSrv) (key : String) (items : List String) (offset : Nat)
    (j : JVal) (e : Unit)
    (h : items.length < SAFE_TOTAL_CAP)
    (hs : srv [("limit", PAGINATION_LIMIT), (key, offset)] = some (200, some j))
    (hext : extract_canonical_ids_from_search_response j = .error e) :
    offsetLoop srv key items offset
      = ([[("limit", PAGINATION_LIMIT), (key, offset)]], .error ()) := by
  rw [offsetLoop, dif_neg (Nat.not_le.mpr h)]
  simp [hs, hext]

theorem offsetLoop_empty (srv : SearchSrv) (key : String) (items : List String) (offset : Nat)
    (j : JVal)
    (h : items.length < SAFE_TOTAL_CAP)
    (hs : srv [("limit", PAGINATION_LIMIT), (key, offset)] = some (200, some j))
    (hext : extract_canonical_ids_from_search_response j = .ok []) :
    offsetLoop srv key items offset = ([[("limit", PAGINATION_LIMIT), (key, offset)]], .ok items) := by
  rw [offsetLoop, dif_neg (Nat.not_le.mpr h)]
  simp [hs, hext]

theorem offsetLoop_short (srv : SearchSrv) (key : String) (items : List String) (offset : Nat)
    (j : JVal) (page_ids : List String)
    (h : items.length < SAFE_TOTAL_CAP)
    (hs : srv [("limit", PAGINATION_LIMIT), (key, offset)] = some (200, some j))
    (hext : extract_canonical_ids_from_search_response j = .ok page_ids)
    (hne : page_ids ≠ [])
    (hshort : page_ids.length < PAGINATION_LIMIT) :
    offsetLoop srv key items offset
      = ([[("limit", PAGINATION_LIMIT), (key, offset)]], .ok (items ++ page_ids)) := by
  rw [offsetLoop, dif_neg (Nat.not_le.mpr h)]
  simp [hs, hext, hne, hshort]

theorem offsetLoop_full (srv : SearchSrv) (key : String) (items : List String) (offset : Nat)
    (j : JVal) (page_ids : List String)
    (h : items.length < SAFE_TOTAL_CAP)
    (hs : srv [("limit", PAGINATION_LIMIT), (key, offset)] = some (200, some j))
    (hext : extract_canonical_ids_from_search_response j = .ok page_ids)
    (hfull : PAGINATION_LIMIT ≤ page_ids.length) :
    offsetLoop srv key items offset
      = ([("limit", PAGINATION_LIMIT), (key, offset)]
            :: (offsetLoop srv key (items ++ page_ids) (offset + page_ids.length)).1,
          (offsetLoop srv key (items ++ page_ids) (offset + page_ids.length)).2) := by
  have hne : page_ids ≠ [] := by
    intro hnil
    rw [hnil] at hfull
    simp [PAGINATION_LIMIT] at hfull
  rw [offsetLoop, dif_neg (Nat.not_le.mpr h)]
  simp [hs, hext, hne, Nat.not_lt.mpr hfull]

theorem pageLoop_stop (srv : SearchSrv) (size_key : String) (items : List String) (page : Nat)
    (h : SAFE_TOTAL_CAP ≤ items.length) :
    pageLoop srv size_key items page = ([], .ok items) := by
  rw [pageLoop]
  rw [dif_pos h]

theorem pageLoop_net (srv : SearchSrv) (size_key : String) (items : List String) (page : Nat)
    (h : items.length < SAFE_TOTAL_CAP)
    (hs : srv [(size_key, PAGINATION_LIMIT), ("page", page)] = none) :
    pageLoop srv size_key items page
      = ([[(size_key, PAGINATION_LIMIT), ("page", page)]], .ok items) := by
  rw [pageLoop, dif_neg (Nat.not_le.mpr h)]
  simp [hs]

theorem pageLoop_badStatus (srv : SearchSrv) (size_key : String) (items : List String) (page : Nat)
    (code : Nat) (body : Option JVal)
    (h : items.length < SAFE_TOTAL_CAP)
    (hs : srv [(size_key, PAGINATION_LIMIT), ("page", page)] = some (code, body))
    (hcode : code ≠ 200) :
    pageLoop srv size_key items page
      = ([[(size_key, PAGINATION_LIMIT), ("page", page)]], .ok items) := by
  rw [pageLoop, dif_neg (Nat.not_le.mpr h)]
  simp [hs, hcode]

theorem pageLoop_noParse (srv : SearchSrv) (size_key : String) (items : List String) (page : Nat)
    (h : items.length < SAFE_TOTAL_CAP)
    (hs : srv [(size_key, PAGINATION_LIMIT), ("page", page)] = some (200, none)) :
    pageLoop srv size_key items page
      = ([[(size_key, PAGINATION_LIMIT), ("page", page)]], .ok items) := by
  rw [pageLoop, dif_neg (Nat.not_le.mpr h)]
  simp [hs]

theorem pageLoop_crash (srv : SearchSrv) (size_key : String) (items : List String) (page : Nat)
    (j : JVal) (e : Unit)
    (h : items.length < SAFE_TOTAL_CAP)
    (hs : srv [(size_key, PAGINATION_LIMIT), ("page", page)] = some (200, some j))
    (hext : extract_canonical_ids_from_search_response j = .error e) :
    pageLoop srv size_key items page
      = ([[(size_key, PAGINATION_LIMIT), ("page", page)]], .error ()) := by
  rw [pageLoop, dif_neg (Nat.not_le.mpr h)]
  simp [hs, hext]

theorem pageLoop_empty (srv : SearchSrv) (size_key : String) (items : List String) (page : Nat)
    (j : JVal)
    (h : items.length < SAFE_TOTAL_CAP)
    (hs : srv [(size_key, PAGINATION_LIMIT), ("page", page)] = some (200, some j))
    (hext : extract_canonical_ids_from_search_response j = .ok []) :
    pageLoop srv size_key items page
      = ([[(size_key, PAGINATION_LIMIT), ("page", page)]], .ok items) := by
  rw [pageLoop, dif_neg (Nat.not_le.mpr h)]
  simp [hs, hext]

theorem pageLoop_short (srv : SearchSrv) (size_key : String) (items : List String) (page : Nat)
    (j : JVal) (page_ids : List String)
    (h : items.length < SAFE_TOTAL_CAP)
    (hs : srv [(size_key, PAGINATION_LIMIT), ("page", page)] = some (200, some j))
    (hext : extract_canonical_ids_from_search_response j = .ok page_ids)
    (hne : page_ids ≠ [])
    (hshort : page_ids.length < PAGINATION_LIMIT) :
    pageLoop srv size_key items page
      = ([[(size_key, PAGINATION_LIMIT), ("page", page)]], .ok (items ++ page_ids)) := by
  rw [pageLoop, dif_neg (Nat.not_le.mpr h)]
  simp [hs, hext, hne, hshort]

theorem pageLoop_full (srv : SearchSrv) (size_key : String) (items : List String) (page : Nat)
    (j : JVal) (page_ids : List String)
    (h : items.length < SAFE_TOTAL_CAP)
    (hs : srv [(size_key, PAGINATION_LIMIT), ("page", page)] = some (200, some j))
    (hext : extract_canonical_ids_from_search_response j = .ok page_ids)
    (hfull : PAGINATION_LIMIT ≤ page_ids.length) :
    pageLoop srv size_key items page
      = ([(size_key, PAGINATION_LIMIT), ("page", page)]
            :: (pageLoop srv size_key (items ++ page_ids) (page + 1)).1,
          (pageLoop srv size_key (items ++ page_ids) (page + 1)).2) := by
  have hne : page_ids ≠ [] := by
    intro hnil
    rw [hnil] at hfull
    simp [PAGINATION_LIMIT] at hfull
  rw [pageLoop, dif_neg (Nat.not_le.mpr h)]
  simp [hs, hext, hne, Nat.not_lt.mpr hfull]

/-! Structural facts about the pagination loops: the shape of issued
payloads, monotonicity of the accumulated items, and nonemptiness of
the trace below the cap. -/

theorem offsetLoop_trace_shape (srv : SearchSrv) (key : String) (items : List String)
    (offset : Nat) :
    ∀ pl2 ∈ (offsetLoop srv key items offset).1,
      ∃ o, pl2 = [("limit", PAGINATION_LIMIT), (key, o)] := by
  induction items, offset using offsetLoop.induct srv key with
  | case1 items offset hcap =>
    rw [offsetLoop_stop srv key items offset hcap]
    simp
  | case2 items offset hcap pl hsrv =>
    rw [offsetLoop_net srv key items offset (Nat.not_le.mp hcap) hsrv]
    rintro pl2 hpl2
    rw [List.mem_singleton] at hpl2
    exact ⟨offset, hpl2⟩
  | case3 items offset hcap pl code body hsrv hcode =>
    rw [offsetLoop_badStatus srv key items offset code body (Nat.not_le.mp hcap) hsrv hcode]
    rintro pl2 hpl2
    rw [List.mem_singleton] at hpl2
    exact ⟨offset, hpl2⟩
  | case4 items offset hcap pl code hcode hsrv =>
    have hc : code = 200 := by omega
    subst hc
    rw [offsetLoop_noParse srv key items offset (Nat.not_le.mp hcap) hsrv]
    rintro pl2 hpl2
    rw [List.mem_singleton] at hpl2
    exact ⟨offset, hpl2⟩
  | case5 items offset hcap pl code hcode j e hext hsrv =>
    have hc : code = 200 := by omega
    subst hc
    rw [offsetLoop_crash srv key items offset j e (Nat.not_le.mp hcap) hsrv hext]
    rintro pl2 hpl2
    rw [List.mem_singleton] at hpl2
    exact ⟨offset, hpl2⟩
  | case6 items offset hcap pl code hcode j hsrv hext =>
    have hc : code = 200 := by omega
    subst hc
    rw [offsetLoop_empty srv key items offset j (Nat.not_le.mp hcap) hsrv hext]
    rintro pl2 hpl2
    rw [List.mem_singleton] at hpl2
    exact ⟨offset, hpl2⟩
  | case7 items offset hcap pl code hcode j page_ids hext hnil hshort hsrv =>
    have hc : code = 200 := by omega
    subst hc
    rw [offsetLoop_short srv key items offset j page_ids (Nat.not_le.mp hcap) hsrv hext hnil hshort]
    rintro pl2 hpl2
    rw [List.mem_singleton] at hpl2
    exact ⟨offset, hpl2⟩
  | case8 items offset hcap pl code hcode j page_ids hext hnil hshort hsrv ih =>
    have hc : code = 200 := by omega
    subst hc
    rw [offsetLoop_full srv key items offset j page_ids (Nat.not_le.mp hcap) hsrv hext
      (Nat.not_lt.mp hshort)]
    rintro pl2 hpl2
    rcases List.mem_cons.mp hpl2 with h | h
    · exact ⟨offset, h⟩
    · exact ih pl2 h

theorem offsetLoop_extends (srv : SearchSrv) (key : String) (items : List String)
    (offset : Nat) :
    ∀ fin : List String, (offsetLoop srv key items offset).2 = .ok fin →
      ∃ ext, fin = items ++ ext := by
  induction items, offset using offsetLoop.induct srv key with
  | case1 items offset hcap =>
    intro fin h
    rw [offsetLoop_stop srv key items offset hcap] at h
    simp at h
    exact ⟨[], by rw [h, List.append_nil]⟩
  | case2 items offset hcap pl hsrv =>
    intro fin h
    rw [offsetLoop_net srv key items offset (Nat.not_le.mp hcap) hsrv] at h
    simp at h
    exact ⟨[], by rw [h, List.append_nil]⟩
  | case3 items offset hcap pl code body hsrv hcode =>
    intro fin h
    rw [offsetLoop_badStatus srv key items offset code body (Nat.not_le.mp hcap) hsrv hcode] at h
    simp at h
    exact ⟨[], by rw [h, List.append_nil]⟩
  | case4 items offset hcap pl code hcode hsrv =>
    have hc : code = 200 := by omega
    subst hc
    intro fin h
    rw [offsetLoop_noParse srv key items offset (Nat.not_le.mp hcap) hsrv] at h
    simp at h
    exact ⟨[], by rw [h, List.append_nil]⟩
  | case5 items offset hcap pl code hcode j e hext hsrv =>
    have hc : code = 200 := by omega
    subst hc
    intro fin h
    rw [offsetLoop_crash srv key items offset j e (Nat.not_le.mp hcap) hsrv hext] at h
    simp at h
  | case6 items offset hcap pl code hcode j hsrv hext =>
    have hc : code = 200 := by omega
    subst hc
    intro fin h
    rw [offsetLoop_empty srv key items offset j (Nat.not_le.mp hcap) hsrv hext] at h
    simp at h
    exact ⟨[], by rw [h, List.append_nil]⟩
  | case7 items offset hcap pl code hcode j page_ids hext hnil hshort hsrv =>
    have hc : code = 200 := by omega
    subst hc
    intro fin h
    rw [offsetLoop_short srv key items offset j page_ids (Nat.not_le.mp hcap) hsrv hext hnil
      hshort] at h
    simp at h
    exact ⟨page_ids, h.symm⟩
  | case8 items offset hcap pl code hcode j page_ids hext hnil hshort hsrv ih =>
    have hc : code = 200 := by omega
    subst hc
    intro fin h
    rw [offsetLoop_full srv key items offset j page_ids (Nat.not_le.mp hcap) hsrv hext
      (Nat.not_lt.mp hshort)] at h
    simp at h
    obtain ⟨ext, hext2⟩ := ih fin h
    exact ⟨page_ids ++ ext, by rw [hext2, List.append_assoc]⟩

theorem offsetLoop_trace_nonnil (srv : SearchSrv) (key : String) (items : List String)
    (offset : Nat) (h : items.length < SAFE_TOTAL_CAP) :
    (offsetLoop srv key items offset).1 ≠ [] := by
  rcases hsrv : srv [("limit", PAGINATION_LIMIT), (key, offset)] with _ | ⟨code, body⟩
  · rw [offsetLoop_net srv key items offset h hsrv]
    simp
  · by_cases hcode : code = 200
    · subst hcode
      rcases body with _ | j
      · rw [offsetLoop_noParse srv key items offset h hsrv]
        simp
      · rcases hext : extract_canonical_ids_from_search_response j with e | page_ids
        · rw [offsetLoop_crash srv key items offset j e h hsrv hext]
          simp
        · by_cases hnil : page_ids = []
          · subst hnil
            rw [offsetLoop_empty srv key items offset j h hsrv hext]
            simp
          · by_cases hshort : page_ids.length < PAGINATION_LIMIT
            · rw [offsetLoop_short srv key items offset j page_ids h hsrv hext hnil hshort]
              simp
            · rw [offsetLoop_full srv key items offset j page_ids h hsrv hext
                (Nat.not_lt.mp hshort)]
              simp
    · rw [offsetLoop_badStatus srv key items offset code body h hsrv hcode]
      simp

theorem pageLoop_trace_nonnil (srv : SearchSrv) (size_key : String) (items : List String)
    (page : Nat) (h : items.length < SAFE_TOTAL_CAP) :
    (pageLoop srv size_key items page).1 ≠ [] := by
  rcases hsrv : srv [(size_key, PAGINATION_LIMIT), ("page", page)] with _ | ⟨code, body⟩
  · rw [pageLoop_net srv size_key items page h hsrv]
    simp
  · by_cases hcode : code = 200
    · subst hcode
      rcases body with _ | j
      · rw [pageLoop_noParse srv size_key items page h hsrv]
        simp
      · rcases hext : extract_canonical_ids_from_search_response j with e | page_ids
        · rw [pageLoop_crash srv size_key items page j e h hsrv hext]
          simp
        · by_cases hnil : page_ids = []
          · subst hnil
            rw [pageLoop_empty srv size_key items page j h hsrv hext]
            simp
          · by_cases hshort : page_ids.length < PAGINATION_LIMIT
            · rw [pageLoop_short srv size_key items page j page_ids h hsrv hext hnil hshort]
              simp
            · rw [pageLoop_full srv size_key items page j page_ids h hsrv hext
                (Nat.not_lt.mp hshort)]
              simp
    · rw [pageLoop_badStatus srv size_key items page code body h hsrv hcode]
      simp

/-- C2: when the probe response carries strictly fewer identifiers than
MAX_SINGLE_LIMIT, the Prober issues exactly that single search request
and returns exactly those identifiers in response order (the final
dedupe pass is the identity on the duplicate-free response). -/
theorem c2_single_probe_sufficient (srv : SearchSrv) (j : JVal) (ids0 : List String)
    (h1 : srv [("limit", MAX_SINGLE_LIMIT)] = some (200, some j))
    (h2 : extract_canonical_ids_from_search_response j = .ok ids0)
    (h3 : ids0.length < MAX_SINGLE_LIMIT) :
    fetch_canonical_ids_smart srv
        = ([[("limit", MAX_SINGLE_LIMIT)]], .ids (dedupe_preserve_order ids0))
    ∧ (ids0.Nodup → dedupe_preserve_order ids0 = ids0) := by
  constructor
  · rw [fetch_canonical_ids_smart]
    rw [h1]
    simp [h2, h3]
  · exact fun h => dedupe_eq_self_of_nodup h

/-- Witness for c2_single_probe_sufficient at the concrete server srv1
whose probe response carries three identifiers. -/
theorem c2_single_probe_sufficient_witness :
    fetch_canonical_ids_smart srv1
        = ([[("limit", MAX_SINGLE_LIMIT)]], .ids (dedupe_preserve_order (seg 0 3)))
    ∧ ((seg 0 3).Nodup → dedupe_preserve_order (seg 0 3) = seg 0 3) :=
  c2_single_probe_sufficient srv1 (JVal.arr ((seg 0 3).map mkIdObj)) (seg 0 3)
    (by simp [srv1])
    (extract_arr_mkIdObj (seg 0 3) (seg_good 0 3))
    (by rw [seg_length]; norm_num [MAX_SINGLE_LIMIT])

/-- C9 counterexample: a server whose probe response carries 20001
identifiers (more than the requested limit) makes the Prober return
20001 collected identifiers, strictly more than SAFE_TOTAL_CAP, so the
collected total is not bounded by the cap for every server behavior. -/
theorem c9_counterexample :
    (fetch_canonical_ids_smart srvOver).2 = FetchOutcome.ids (seg 0 20001)
    ∧ SAFE_TOTAL_CAP < (seg 0 20001).length := by
  constructor
  · have hsrv : srvOver [("limit", MAX_SINGLE_LIMIT)]
        = some (200, some (JVal.arr ((seg 0 20001).map mkIdObj))) := by
      simp [srvOver]
    have hext := extract_arr_mkIdObj (seg 0 20001) (seg_good 0 20001)
    have hcap : SAFE_TOTAL_CAP ≤ (seg 0 20001).length := by
      rw [seg_length]
      norm_num [SAFE_TOTAL_CAP]
    have hstopO : ∀ key off, offsetLoop srvOver key (seg 0 20001) off
        = ([], .ok (seg 0 20001)) :=
      fun key off => offsetLoop_stop srvOver key _ off hcap
    have hstopP : ∀ key off, pageLoop srvOver key (seg 0 20001) off
        = ([], .ok (seg 0 20001)) :=
      fun key off => pageLoop_stop srvOver key _ off hcap
    have hA : strategyA srvOver (seg 0 20001) offset_keys = ([], .noGain) := by
      simp [strategyA, offset_keys, hstopO]
    have hB : strategyB srvOver (seg 0 20001) pageConfigs = ([], .noGain) := by
      simp [strategyB, pageConfigs, hstopP]
    have hLR : lastResort srvOver (seg 0 20001) = ([[("limit", 5000)]], none) := by
      simp [lastResort, SAFE_TOTAL_CAP, MAX_SINGLE_LIMIT, srvOver]
    rw [fetch_canonical_ids_smart, hsrv]
    simp [hext, hA, hB, hLR, seg_length, MAX_SINGLE_LIMIT,
      dedupe_eq_self_of_nodup (seg_nodup 0 20001)]
  · rw [seg_length]
    norm_num [SAFE_TOTAL_CAP]

/-- C9 amended: once the collected total has reached SAFE_TOTAL_CAP,
both pagination loops issue no further page request and end with an ok
best-effort result rather than an error; the cap bounds further
requests, not the collected total itself, which can exceed the cap when
a single response over-delivers (c9_counterexample). -/
theorem c9_cap_stops_pagination (srv : SearchSrv) (key : String) (items : List String)
    (n : Nat) (h : SAFE_TOTAL_CAP ≤ items.length) :
    offsetLoop srv key items n = ([], Except.ok items)
    ∧ pageLoop srv key items n = ([], Except.ok items) :=
  ⟨offsetLoop_stop srv key items n h, pageLoop_stop srv key items n h⟩

/-- Witness for c9_cap_stops_pagination: 20000 collected identifiers
stop both loops with no request issued. -/
theorem c9_cap_stops_pagination_witness :
    offsetLoop srvOver "offset" (seg 0 20000) 0 = ([], Except.ok (seg 0 20000))
    ∧ pageLoop srvOver "offset" (seg 0 20000) 0 = ([], Except.ok (seg 0 20000)) :=
  c9_cap_stops_pagination srvOver "offset" (seg 0 20000) 0
    (by rw [seg_length]; norm_num [SAFE_TOTAL_CAP])

/-- C3: when the probe is exactly at the limit and the first
offset-style convention (key offset, tried before any page-based
convention) strictly extends the collected identifiers, the Prober
returns the deduplicated first-occurrence-ordered concatenation of the
probe identifiers and all pages of that convention, and no issued
request carries a page or size parameter. -/
theorem c3_offset_convention_wins (srv : SearchSrv) (j : JVal)
    (ids0 items : List String) (tr : List Payload)
    (h1 : srv [("limit", MAX_SINGLE_LIMIT)] = some (200, some j))
    (h2 : extract_canonical_ids_from_search_response j = .ok ids0)
    (h3 : ids0.length = MAX_SINGLE_LIMIT)
    (h4 : offsetLoop srv "offset" ids0 ids0.length = (tr, .ok items))
    (h5 : ids0.length < items.length) :
    fetch_canonical_ids_smart srv
        = ([("limit", MAX_SINGLE_LIMIT)] :: tr, .ids (dedupe_preserve_order items))
    ∧ (∃ pages, items = ids0 ++ pages)
    ∧ (dedupe_preserve_order items).Nodup
    ∧ List.Sublist (dedupe_preserve_order items) items
    ∧ (∀ x, x ∈ dedupe_preserve_order items ↔ x ∈ items)
    ∧ (∀ pl ∈ [("limit", MAX_SINGLE_LIMIT)] :: tr, ∀ kv ∈ pl,
        kv.1 ≠ "page" ∧ kv.1 ≠ "size") := by
  refine ⟨?_, ?_, dedupe_nodup items, dedupe_sublist items, mem_dedupe items, ?_⟩
  · have hnotlt : ¬ ids0.length < MAX_SINGLE_LIMIT := by omega
    have hA : strategyA srv ids0 offset_keys = (tr, .found (dedupe_preserve_order items)) := by
      simp [strategyA, offset_keys, h4, h5]
    rw [fetch_canonical_ids_smart, h1]
    simp [h2, hnotlt, hA]
  · refine offsetLoop_extends srv "offset" ids0 ids0.length items ?_
    rw [h4]
  · have hshape := offsetLoop_trace_shape srv "offset" ids0 ids0.length
    rw [h4] at hshape
    intro pl hpl kv hkv
    rcases List.mem_cons.mp hpl with rfl | hpl2
    · rw [List.mem_singleton] at hkv
      subst hkv
      refine ⟨by decide, by decide⟩
    · obtain ⟨o, rfl⟩ := hshape pl hpl2
      rcases List.mem_cons.mp hkv with rfl | hkv2
      · refine ⟨by decide, by decide⟩
      · rw [List.mem_singleton] at hkv2
        subst hkv2
        refine ⟨by simp, by simp⟩

/-- Witness for c3_offset_convention_wins: srv3 serves a full probe of
2000 identifiers, two further offset pages of 1000 fresh identifiers
each, and then an empty page. -/
theorem c3_offset_convention_wins_witness :
    fetch_canonical_ids_smart srv3
        = ([("limit", MAX_SINGLE_LIMIT)]
              :: [[("limit", PAGINATION_LIMIT), ("offset", 2000)],
                  [("limit", PAGINATION_LIMIT), ("offset", 3000)],
                  [("limit", PAGINATION_LIMIT), ("offset", 4000)]],
            .ids (dedupe_preserve_order (seg 0 4000)))
    ∧ (∃ pages, seg 0 4000 = seg 0 2000 ++ pages)
    ∧ (dedupe_preserve_order (seg 0 4000)).Nodup
    ∧ List.Sublist (dedupe_preserve_order (seg 0 4000)) (seg 0 4000)
    ∧ (∀ x, x ∈ dedupe_preserve_order (seg 0 4000) ↔ x ∈ seg 0 4000)
    ∧ (∀ pl ∈ [("limit", MAX_SINGLE_LIMIT)]
          :: [[("limit", PAGINATION_LIMIT), ("offset", 2000)],
              [("limit", PAGINATION_LIMIT), ("offset", 3000)],
              [("limit", PAGINATION_LIMIT), ("offset", 4000)]], ∀ kv ∈ pl,
        kv.1 ≠ "page" ∧ kv.1 ≠ "size") := by
  have hap1 : seg 0 2000 ++ seg 2000 1000 = seg 0 3000 := by
    simpa using seg_append 0 2000 1000
  have hap2 : seg 0 3000 ++ seg 3000 1000 = seg 0 4000 := by
    simpa using seg_append 0 3000 1000
  have hsrv1 : srv3 [("limit", PAGINATION_LIMIT), ("offset", 2000)]
      = some (200, some (JVal.arr ((seg 2000 1000).map mkIdObj))) := by
    simp [srv3, PAGINATION_LIMIT, MAX_SINGLE_LIMIT]
  have hsrv2 : srv3 [("limit", PAGINATION_LIMIT), ("offset", 3000)]
      = some (200, some (JVal.arr ((seg 3000 1000).map mkIdObj))) := by
    simp [srv3, PAGINATION_LIMIT, MAX_SINGLE_LIMIT]
  have hsrv3 : srv3 [("limit", PAGINATION_LIMIT), ("offset", 4000)]
      = some (200, some (JVal.arr [])) := by
    simp [srv3, PAGINATION_LIMIT, MAX_SINGLE_LIMIT]
  have hfull1 : PAGINATION_LIMIT ≤ (seg 2000 1000).length := by
    rw [seg_length]
    norm_num [PAGINATION_LIMIT]
  have hfull2 : PAGINATION_LIMIT ≤ (seg 3000 1000).length := by
    rw [seg_length]
    norm_num [PAGINATION_LIMIT]
  have hlt1 : (seg 0 2000).length < SAFE_TOTAL_CAP := by
    rw [seg_length]
    norm_num [SAFE_TOTAL_CAP]
  have hlt2 : (seg 0 3000).length < SAFE_TOTAL_CAP := by
    rw [seg_length]
    norm_num [SAFE_TOTAL_CAP]
  have hlt3 : (seg 0 4000).length < SAFE_TOTAL_CAP := by
    rw [seg_length]
    norm_num [SAFE_TOTAL_CAP]
  have hstep1 := offsetLoop_full srv3 "offset" (seg 0 2000) 2000 _ (seg 2000 1000) hlt1 hsrv1
    (extract_arr_mkIdObj _ (seg_good 2000 1000)) hfull1
  rw [hap1, seg_length] at hstep1
  norm_num at hstep1
  have hstep2 := offsetLoop_full srv3 "offset" (seg 0 3000) 3000 _ (seg 3000 1000) hlt2 hsrv2
    (extract_arr_mkIdObj _ (seg_good 3000 1000)) hfull2
  rw [hap2, seg_length] at hstep2
  norm_num at hstep2
  have hstep3 := offsetLoop_empty srv3 "offset" (seg 0 4000) 4000 (JVal.arr []) hlt3 hsrv3
    extract_arr_nil
  have h4 : offsetLoop srv3 "offset" (seg 0 2000) (seg 0 2000).length
      = ([[("limit", PAGINATION_LIMIT), ("offset", 2000)],
          [("limit", PAGINATION_LIMIT), ("offset", 3000)],
          [("limit", PAGINATION_LIMIT), ("offset", 4000)]], .ok (seg 0 4000)) := by
    rw [seg_length, hstep1, hstep2, hstep3]
  exact c3_offset_convention_wins srv3 (JVal.arr ((seg 0 2000).map mkIdObj))
    (seg 0 2000) (seg 0 4000) _
    (by simp [srv3])
    (extract_arr_mkIdObj _ (seg_good 0 2000))
    (by rw [seg_length]; norm_num [MAX_SINGLE_LIMIT])
    h4
    (by rw [seg_length, seg_length]; norm_num)

/-! Characterization of when a pagination loop issues a further page
request beyond the current one. -/

theorem offsetLoop_continues_iff (srv : SearchSrv) (key : String) (items : List String)
    (offset : Nat) (h : items.length < SAFE_TOTAL_CAP) :
    1 < (offsetLoop srv key items offset).1.length ↔
      ∃ j page_ids, srv [("limit", PAGINATION_LIMIT), (key, offset)] = some (200, some j)
        ∧ extract_canonical_ids_from_search_response j = .ok page_ids
        ∧ PAGINATION_LIMIT ≤ page_ids.length
        ∧ (items ++ page_ids).length < SAFE_TOTAL_CAP := by
  rcases hsrv : srv [("limit", PAGINATION_LIMIT), (key, offset)] with _ | ⟨code, body⟩
  · rw [offsetLoop_net srv key items offset h hsrv]
    constructor
    · intro h1
      simp at h1
    · rintro ⟨j, p, hj, _⟩
      cases hj
  · by_cases hcode : code = 200
    · subst hcode
      rcases body with _ | j
      · rw [offsetLoop_noParse srv key items offset h hsrv]
        constructor
        · intro h1
          simp at h1
        · rintro ⟨j, p, hj, _⟩
          simp at hj
      · rcases hext : extract_canonical_ids_from_search_response j with e | page_ids
        · rw [offsetLoop_crash srv key items offset j e h hsrv hext]
          constructor
          · intro h1
            simp at h1
          · rintro ⟨j2, p, hj, hext2, _⟩
            simp at hj
            subst hj
            rw [hext] at hext2
            cases hext2
        · by_cases hnil : page_ids = []
          · subst hnil
            rw [offsetLoop_empty srv key items offset j h hsrv hext]
            constructor
            · intro h1
              simp at h1
            · rintro ⟨j2, p, hj, hext2, hlen, _⟩
              simp at hj
              subst hj
              rw [hext] at hext2
              simp at hext2
              subst hext2
              simp [PAGINATION_LIMIT] at hlen
          · by_cases hshort : page_ids.length < PAGINATION_LIMIT
            · rw [offsetLoop_short srv key items offset j page_ids h hsrv hext hnil hshort]
              constructor
              · intro h1
                simp at h1
              · rintro ⟨j2, p, hj, hext2, hlen, _⟩
                simp at hj
                subst hj
                rw [hext] at hext2
                simp at hext2
                subst hext2
                omega
            · rw [offsetLoop_full srv key items offset j page_ids h hsrv hext
                (Nat.not_lt.mp hshort)]
              by_cases hcap2 : (items ++ page_ids).length < SAFE_TOTAL_CAP
              · constructor
                · intro _
                  exact ⟨j, page_ids, rfl, hext, Nat.not_lt.mp hshort, hcap2⟩
                · intro _
                  have hne := offsetLoop_trace_nonnil srv key (items ++ page_ids)
                    (offset + page_ids.length) hcap2
                  have hpos : 0 < (offsetLoop srv key (items ++ page_ids)
                      (offset + page_ids.length)).1.length := List.length_pos.mpr hne
                  simp only [List.length_cons]
                  omega
              · rw [offsetLoop_stop srv key (items ++ page_ids) (offset + page_ids.length)
                  (Nat.not_lt.mp hcap2)]
                constructor
                · intro h1
                  simp at h1
                · rintro ⟨j2, p, hj, hext2, _, hcap3⟩
                  simp at hj
                  subst hj
                  rw [hext] at hext2
                  simp at hext2
                  subst hext2
                  exact absurd hcap3 hcap2
    · rw [offsetLoop_badStatus srv key items offset code body h hsrv hcode]
      constructor
      · intro h1
        simp at h1
      · rintro ⟨j, p, hj, _⟩
        simp at hj
        exact absurd hj.1 hcode

theorem pageLoop_continues_iff (srv : SearchSrv) (size_key : String) (items : List String)
    (page : Nat) (h : items.length < SAFE_TOTAL_CAP) :
    1 < (pageLoop srv size_key items page).1.length ↔
      ∃ j page_ids, srv [(size_key, PAGINATION_LIMIT), ("page", page)] = some (200, some j)
        ∧ extract_canonical_ids_from_search_response j = .ok page_ids
        ∧ PAGINATION_LIMIT ≤ page_ids.length
        ∧ (items ++ page_ids).length < SAFE_TOTAL_CAP := by
  rcases hsrv : srv [(size_key, PAGINATION_LIMIT), ("page", page)] with _ | ⟨code, body⟩
  · rw [pageLoop_net srv size_key items page h hsrv]
    constructor
    · intro h1
      simp at h1
    · rintro ⟨j, p, hj, _⟩
      cases hj
  · by_cases hcode : code = 200
    · subst hcode
      rcases body with _ | j
      · rw [pageLoop_noParse srv size_key items page h hsrv]
        constructor
        · intro h1
          simp at h1
        · rintro ⟨j, p, hj, _⟩
          simp at hj
      · rcases hext : extract_canonical_ids_from_search_response j with e | page_ids
        · rw [pageLoop_crash srv size_key items page j e h hsrv hext]
          constructor
          · intro h1
            simp at h1
          · rintro ⟨j2, p, hj, hext2, _⟩
            simp at hj
            subst hj
            rw [hext] at hext2
            cases hext2
        · by_cases hnil : page_ids = []
          · subst hnil
            rw [pageLoop_empty srv size_key items page j h hsrv hext]
            constructor
            · intro h1
              simp at h1
            · rintro ⟨j2, p, hj, hext2, hlen, _⟩
              simp at hj
              subst hj
              rw [hext] at hext2
              simp at hext2
              subst hext2
              simp [PAGINATION_LIMIT] at hlen
          · by_cases hshort : page_ids.length < PAGINATION_LIMIT
            · rw [pageLoop_short srv size_key items page j page_ids h hsrv hext hnil hshort]
              constructor
              · intro h1
                simp at h1
              · rintro ⟨j2, p, hj, hext2, hlen, _⟩
                simp at hj
                subst hj
                rw [hext] at hext2
                simp at hext2
                subst hext2
                omega
            · rw [pageLoop_full srv size_key items page j page_ids h hsrv hext
                (Nat.not_lt.mp hshort)]
              by_cases hcap2 : (items ++ page_ids).length < SAFE_TOTAL_CAP
              · constructor
                · intro _
                  exact ⟨j, page_ids, rfl, hext, Nat.not_lt.mp hshort, hcap2⟩
                · intro _
                  have hne := pageLoop_trace_nonnil srv size_key (items ++ page_ids)
                    (page + 1) hcap2
                  have hpos : 0 < (pageLoop srv size_key (items ++ page_ids)
                      (page + 1)).1.length := List.length_pos.mpr hne
                  simp only [List.length_cons]
                  omega
              · rw [pageLoop_stop srv size_key (items ++ page_ids) (page + 1)
                  (Nat.not_lt.mp hcap2)]
                constructor
                · intro h1
                  simp at h1
                · rintro ⟨j2, p, hj, hext2, _, hcap3⟩
                  simp at hj
                  subst hj
                  rw [hext] at hext2
                  simp at hext2
                  subst hext2
                  exact absurd hcap3 hcap2
    · rw [pageLoop_badStatus srv size_key items page code body h hsrv hcode]
      constructor
      · intro h1
        simp at h1
      · rintro ⟨j, p, hj, _⟩
        simp at hj
        exact absurd hj.1 hcode

/-- C8 amended: during follow-up pagination under one convention, the
loop requests a further page exactly when the current page request
succeeded with status 200, its body parsed, extraction yielded at least
PAGINATION_LIMIT identifiers (hence a nonempty, full page), and the
extended total is still below SAFE_TOTAL_CAP; when the collected total
has already reached the cap, no request at all is issued.  Failure of
the page request (transport, status, or parse) also stops the loop, and
freshness of the identifiers is not considered (see the
counterexample). -/
theorem c8_stop_conditions (srv : SearchSrv) (key : String) (items : List String) (n : Nat) :
    (SAFE_TOTAL_CAP ≤ items.length →
      offsetLoop srv key items n = ([], .ok items)
      ∧ pageLoop srv key items n = ([], .ok items))
    ∧ (items.length < SAFE_TOTAL_CAP →
      (1 < (offsetLoop srv key items n).1.length ↔
        ∃ j page_ids, srv [("limit", PAGINATION_LIMIT), (key, n)] = some (200, some j)
          ∧ extract_canonical_ids_from_search_response j = .ok page_ids
          ∧ PAGINATION_LIMIT ≤ page_ids.length
          ∧ (items ++ page_ids).length < SAFE_TOTAL_CAP))
    ∧ (items.length < SAFE_TOTAL_CAP →
      (1 < (pageLoop srv key items n).1.length ↔
        ∃ j page_ids, srv [(key, PAGINATION_LIMIT), ("page", n)] = some (200, some j)
          ∧ extract_canonical_ids_from_search_response j = .ok page_ids
          ∧ PAGINATION_LIMIT ≤ page_ids.length
          ∧ (items ++ page_ids).length < SAFE_TOTAL_CAP)) :=
  ⟨fun h => ⟨offsetLoop_stop srv key items n h, pageLoop_stop srv key items n h⟩,
   fun h => offsetLoop_continues_iff srv key items n h,
   fun h => pageLoop_continues_iff srv key items n h⟩

/-- Witness for c8_stop_conditions at a transport-failing server with
an empty collection. -/
theorem c8_stop_conditions_witness :
    (SAFE_TOTAL_CAP ≤ ([] : List String).length →
      offsetLoop (fun _ => none) "offset" [] 0 = ([], .ok [])
      ∧ pageLoop (fun _ => none) "offset" [] 0 = ([], .ok []))
    ∧ (([] : List String).length < SAFE_TOTAL_CAP →
      (1 < (offsetLoop (fun _ => none) "offset" [] 0).1.length ↔
        ∃ j page_ids,
          (fun (_ : Payload) => (none : Option (Nat × Option JVal)))
              [("limit", PAGINATION_LIMIT), ("offset", 0)] = some (200, some j)
          ∧ extract_canonical_ids_from_search_response j = .ok page_ids
          ∧ PAGINATION_LIMIT ≤ page_ids.length
          ∧ (([] : List String) ++ page_ids).length < SAFE_TOTAL_CAP))
    ∧ (([] : List String).length < SAFE_TOTAL_CAP →
      (1 < (pageLoop (fun _ => none) "offset" [] 0).1.length ↔
        ∃ j page_ids,
          (fun (_ : Payload) => (none : Option (Nat × Option JVal)))
              [("offset", PAGINATION_LIMIT), ("page", 0)] = some (200, some j)
          ∧ extract_canonical_ids_from_search_response j = .ok page_ids
          ∧ PAGINATION_LIMIT ≤ page_ids.length
          ∧ (([] : List String) ++ page_ids).length < SAFE_TOTAL_CAP)) :=
  c8_stop_conditions (fun _ => none) "offset" [] 0

/-- C8 counterexample: under srvDup the first follow-up page at offset
2000 contributes zero new identifiers (they are all already collected,
second conjunct), yet the Prober does not stop and issues a second page
request at offset 3000 (first conjunct): a page with zero new
identifiers is not a stop condition of the code; only an empty page
is. -/
theorem c8_counterexample :
    (offsetLoop srvDup "offset" (seg 0 2000) 2000).1
        = [[("limit", PAGINATION_LIMIT), ("offset", 2000)],
           [("limit", PAGINATION_LIMIT), ("offset", 3000)]]
    ∧ ∀ x ∈ seg 0 1000, x ∈ seg 0 2000 := by
  constructor
  · have hsrv1 : srvDup [("limit", PAGINATION_LIMIT), ("offset", 2000)]
        = some (200, some (JVal.arr ((seg 0 1000).map mkIdObj))) := by
      simp [srvDup, PAGINATION_LIMIT, MAX_SINGLE_LIMIT]
    have hsrv2 : srvDup [("limit", PAGINATION_LIMIT), ("offset", 3000)] = none := by
      simp [srvDup, PAGINATION_LIMIT, MAX_SINGLE_LIMIT]
    have hlt1 : (seg 0 2000).length < SAFE_TOTAL_CAP := by
      rw [seg_length]
      norm_num [SAFE_TOTAL_CAP]
    have hlt2 : (seg 0 2000 ++ seg 0 1000).length < SAFE_TOTAL_CAP := by
      rw [List.length_append, seg_length, seg_length]
      norm_num [SAFE_TOTAL_CAP]
    have hfull1 : PAGINATION_LIMIT ≤ (seg 0 1000).length := by
      rw [seg_length]
      norm_num [PAGINATION_LIMIT]
    have hstep1 := offsetLoop_full srvDup "offset" (seg 0 2000) 2000 _ (seg 0 1000) hlt1 hsrv1
      (extract_arr_mkIdObj _ (seg_good 0 1000)) hfull1
    rw [seg_length] at hstep1
    norm_num at hstep1
    have hstep2 := offsetLoop_net srvDup "offset" (seg 0 2000 ++ seg 0 1000) 3000 hlt2 hsrv2
    rw [hstep1, hstep2]
  · exact seg_subset (by norm_num)

/-! Helper lemmas on the batch loop. -/

theorem runBatches_error (srv : BatchSrv) :
    ∀ pre : List (List String), (∀ c2 ∈ pre, ∃ ideas, processChunk srv c2 = .ok ideas) →
      ∀ (c : List String) (rest : List (List String)) (e : Nat),
        processChunk srv c = .error e →
        (runBatches srv (pre ++ c :: rest)).2 = .error e
  | [], _, c, rest, e, hc => by simp [runBatches, hc]
  | p :: ps, hpre, c, rest, e, hc => by
    obtain ⟨ideas, hp⟩ := hpre p (List.mem_cons_self p ps)
    have ih := runBatches_error srv ps (fun c2 h2 => hpre c2 (List.mem_cons_of_mem p h2))
      c rest e hc
    simp [runBatches, hp, ih]

theorem runBatches_ok (srv : BatchSrv) (f : List String → List (List (String × JVal))) :
    ∀ chunks : List (List String), (∀ c ∈ chunks, processChunk srv c = .ok (f c)) →
      runBatches srv chunks = (chunks, .ok ((chunks.map f).flatten))
  | [], _ => by simp [runBatches]
  | c :: cs, h => by
    have ih := runBatches_ok srv f cs (fun c2 h2 => h c2 (List.mem_cons_of_mem c h2))
    simp [runBatches, h c (List.mem_cons_self c cs), ih]

theorem chunked_of_length_250 {α : Type} (l : List α) (h : l.length = 250) :
    chunked_iterable l 100
      = [l.take 100, (l.drop 100).take 100, (l.drop 100).drop 100] := by
  have h1 : l ≠ [] := by
    intro he
    rw [he] at h
    simp at h
  rw [chunked_cons_of_ne l 100 h1 (by norm_num)]
  have hd1 : (l.drop 100).length = 150 := by rw [List.length_drop, h]
  have h2 : l.drop 100 ≠ [] := by
    intro he
    rw [he] at hd1
    simp at hd1
  rw [chunked_cons_of_ne _ 100 h2 (by norm_num)]
  have hd2 : ((l.drop 100).drop 100).length = 50 := by rw [List.length_drop, hd1]
  have h3 : (l.drop 100).drop 100 ≠ [] := by
    intro he
    rw [he] at hd2
    simp at hd2
  rw [chunked_cons_of_ne _ 100 h3 (by norm_num)]
  have hd3 : (((l.drop 100).drop 100).drop 100).length = 0 := by rw [List.length_drop, hd2]
  have h4 : ((l.drop 100).drop 100).drop 100 = [] := List.eq_nil_of_length_eq_zero hd3
  rw [h4, chunked_nil,
    @List.take_of_length_le α 100 ((l.drop 100).drop 100) (by rw [hd2]; norm_num)]

/-- C1: a failing batch-fetch request on any reached chunk aborts the
whole run with that exit code: the batch loop and the whole
batch-and-flatten phase yield the error and no flattened table, and the
codes identify the failure mode, with 401 (code 7) distinct from other
non-success statuses (code 8) and all other modes. -/
theorem c1_batch_failure_fatal (srv : BatchSrv) (pre rest : List (List String))
    (c : List String) (e : Nat)
    (hpre : ∀ c2 ∈ pre, ∃ ideas, processChunk srv c2 = .ok ideas)
    (hc : processChunk srv c = .error e) :
    (runBatches srv (pre ++ c :: rest)).2 = .error e
    ∧ harvestFromChunks srv (pre ++ c :: rest) = .error e
    ∧ (srv c = none → e = 6)
    ∧ (∀ b, srv c = some (401, b) → e = 7)
    ∧ (∀ s b, srv c = some (s, b) → s ≠ 401 → s ≠ 200 → e = 8)
    ∧ (srv c = some (200, none) → e = 9)
    ∧ (7 : Nat) ≠ 8 ∧ (7 : Nat) ≠ 6 ∧ (7 : Nat) ≠ 9 := by
  have hrun := runBatches_error srv pre hpre c rest e hc
  refine ⟨hrun, ?_, ?_, ?_, ?_, ?_, by decide, by decide, by decide⟩
  · rw [harvestFromChunks, hrun]
  · intro h
    simp [processChunk, h] at hc
    omega
  · intro b h
    simp [processChunk, h] at hc
    omega
  · intro s b h hs1 hs2
    simp [processChunk, h, hs1, hs2] at hc
    omega
  · intro h
    simp [processChunk, h] at hc
    omega

/-- Witness for c1_batch_failure_fatal: srvFailY answers chunk x, fails
with a transport error on chunk y, and chunk z is never a concern. -/
theorem c1_batch_failure_fatal_witness :
    (runBatches srvFailY ([["x"]] ++ ["y"] :: [["z"]])).2 = .error 6
    ∧ harvestFromChunks srvFailY ([["x"]] ++ ["y"] :: [["z"]]) = .error 6
    ∧ (srvFailY ["y"] = none → 6 = 6)
    ∧ (∀ b, srvFailY ["y"] = some (401, b) → 6 = 7)
    ∧ (∀ s b, srvFailY ["y"] = some (s, b) → s ≠ 401 → s ≠ 200 → 6 = 8)
    ∧ (srvFailY ["y"] = some (200, none) → 6 = 9)
    ∧ (7 : Nat) ≠ 8 ∧ (7 : Nat) ≠ 6 ∧ (7 : Nat) ≠ 9 :=
  c1_batch_failure_fatal srvFailY [["x"]] [["z"]] ["y"] 6
    (by
      intro c2 hc2
      rw [List.mem_singleton] at hc2
      subst hc2
      exact ⟨[], rfl⟩)
    rfl

/-- C6: 250 identifiers with batch capacity 100 are partitioned into
exactly 3 chunks of sizes 100, 100, 50 whose concatenation is the input
in order; one batch request is issued per chunk in order, and the
resolved records are concatenated in batch order. -/
theorem c6_partition_250 (ids : List String) (srv : BatchSrv)
    (f : List String → List (List (String × JVal)))
    (hlen : ids.length = 250)
    (hok : ∀ c ∈ chunked_iterable ids BATCH_SIZE, processChunk srv c = .ok (f c)) :
    (chunked_iterable ids BATCH_SIZE).length = 3
    ∧ (chunked_iterable ids BATCH_SIZE).map List.length = [100, 100, 50]
    ∧ (chunked_iterable ids BATCH_SIZE).flatten = ids
    ∧ (runBatches srv (chunked_iterable ids BATCH_SIZE)).1 = chunked_iterable ids BATCH_SIZE
    ∧ (runBatches srv (chunked_iterable ids BATCH_SIZE)).2
        = .ok (((chunked_iterable ids BATCH_SIZE).map f).flatten) := by
  have hch : chunked_iterable ids BATCH_SIZE
      = [ids.take 100, (ids.drop 100).take 100, (ids.drop 100).drop 100] :=
    chunked_of_length_250 ids hlen
  have hrb := runBatches_ok srv f (chunked_iterable ids BATCH_SIZE) hok
  refine ⟨by rw [hch]; rfl, ?_, ?_, by rw [hrb], by rw [hrb]⟩
  · rw [hch]
    simp [List.length_take, List.length_drop, hlen]
  · rw [hch]
    simp only [List.flatten, List.append_nil]
    rw [List.take_append_drop, List.take_append_drop]

/-- Witness for c6_partition_250 with 250 concrete identifiers and a
server answering every chunk with an empty record list. -/
theorem c6_partition_250_witness :
    (chunked_iterable ids250 BATCH_SIZE).length = 3
    ∧ (chunked_iterable ids250 BATCH_SIZE).map List.length = [100, 100, 50]
    ∧ (chunked_iterable ids250 BATCH_SIZE).flatten = ids250
    ∧ (runBatches srvEmptyBatches (chunked_iterable ids250 BATCH_SIZE)).1
        = chunked_iterable ids250 BATCH_SIZE
    ∧ (runBatches srvEmptyBatches (chunked_iterable ids250 BATCH_SIZE)).2
        = .ok (((chunked_iterable ids250 BATCH_SIZE).map
            (fun _ => ([] : List (List (String × JVal))))).flatten) :=
  c6_partition_250 ids250 srvEmptyBatches (fun _ => [])
    (seg_length 0 250)
    (fun _ _ => rfl)

/-! Helper lemmas on the observed column set and the schema. -/

theorem mem_foldl_append :
    ∀ (rows : List (List (String × JVal))) (init : List String) (x : String),
      x ∈ rows.foldl (fun acc r => acc ++ r.map Prod.fst) init
        ↔ x ∈ init ∨ ∃ r ∈ rows, x ∈ r.map Prod.fst
  | [], init, x => by simp
  | r :: rs, init, x => by
    rw [List.foldl_cons, mem_foldl_append rs (init ++ r.map Prod.fst) x]
    simp only [List.mem_append, List.mem_cons]
    constructor
    · rintro ((h | h) | ⟨r2, h2, h3⟩)
      · exact Or.inl h
      · exact Or.inr ⟨r, Or.inl rfl, h⟩
      · exact Or.inr ⟨r2, Or.inr h2, h3⟩
    · rintro (h | ⟨r2, (rfl | h2), h3⟩)
      · exact Or.inl (Or.inl h)
      · exact Or.inl (Or.inr h3)
      · exact Or.inr ⟨r2, h2, h3⟩

theorem mem_observedCols (ideas : List (List (String × JVal))) (k : String) :
    k ∈ observedCols ideas ↔ ∃ idea ∈ ideas, ∃ p ∈ flattenIdea idea, p.1 = k := by
  rw [observedCols, List.mem_dedup, mem_foldl_append]
  constructor
  · rintro (h | ⟨r, hr, hx⟩)
    · simp at h
    · obtain ⟨idea, hidea, rfl⟩ := List.mem_map.mp hr
      obtain ⟨p, hp, hpx⟩ := List.mem_map.mp hx
      exact ⟨idea, hidea, p, hp, hpx⟩
  · rintro ⟨idea, hidea, p, hp, hpx⟩
    exact Or.inr ⟨flattenIdea idea, List.mem_map_of_mem flattenIdea hidea,
      List.mem_map.mpr ⟨p, hp, hpx⟩⟩

theorem normalize_fst (ideas : List (List (String × JVal))) :
    (normalize_ideas ideas).1
      = preferred.filter (fun k => decide (k ∈ observedCols ideas))
          ++ List.insertionSort strLeRel
              ((observedCols ideas).filter (fun k => decide (k ∉ preferred))) := rfl

theorem normalize_snd (ideas : List (List (String × JVal))) :
    (normalize_ideas ideas).2
      = (ideas.map flattenIdea).map (fun r =>
          (normalize_ideas ideas).1.map (fun k => (k, (jGet r k).getD (JVal.str "")))) := rfl

/-- C4: the final schema consists exactly of the observed column names,
the preferred ones that occur first in their fixed order, the rest
sorted; every output row carries exactly the schema columns in schema
order, cells default to the empty string for columns the record lacks,
and rows stay in resolution order. -/
theorem c4_schema_and_rows (ideas : List (List (String × JVal))) :
    (∀ k, k ∈ (normalize_ideas ideas).1 ↔ ∃ idea ∈ ideas, ∃ p ∈ flattenIdea idea, p.1 = k)
    ∧ (normalize_ideas ideas).1.Nodup
    ∧ (∃ restCols, (normalize_ideas ideas).1
          = preferred.filter (fun k => decide (k ∈ observedCols ideas)) ++ restCols
        ∧ List.Sorted strLeRel restCols
        ∧ (∀ k, k ∈ restCols ↔ k ∈ observedCols ideas ∧ k ∉ preferred))
    ∧ (normalize_ideas ideas).2
        = ideas.map (fun idea => (normalize_ideas ideas).1.map
            (fun k => (k, (jGet (flattenIdea idea) k).getD (JVal.str ""))))
    ∧ (∀ row ∈ (normalize_ideas ideas).2, row.map Prod.fst = (normalize_ideas ideas).1)
    ∧ (∀ idea k, jGet (flattenIdea idea) k = none →
        (jGet (flattenIdea idea) k).getD (JVal.str "") = JVal.str "") := by
  have hperm := List.perm_insertionSort strLeRel
    ((observedCols ideas).filter (fun k => decide (k ∉ preferred)))
  have hmemR : ∀ k, k ∈ List.insertionSort strLeRel
      ((observedCols ideas).filter (fun k => decide (k ∉ preferred)))
      ↔ k ∈ observedCols ideas ∧ k ∉ preferred := by
    intro k
    rw [hperm.mem_iff, List.mem_filter]
    simp
  have hmemP : ∀ k, k ∈ preferred.filter (fun k => decide (k ∈ observedCols ideas))
      ↔ k ∈ preferred ∧ k ∈ observedCols ideas := by
    intro k
    rw [List.mem_filter]
    simp
  refine ⟨?_, ?_, ?_, ?_, ?_, ?_⟩
  · intro k
    rw [← mem_observedCols ideas k, normalize_fst, List.mem_append, hmemR, hmemP]
    by_cases hp : k ∈ preferred <;> by_cases ho : k ∈ observedCols ideas <;> simp [hp, ho]
  · rw [normalize_fst]
    have hobs : (observedCols ideas).Nodup := by
      rw [observedCols]
      exact List.nodup_dedup _
    refine List.Nodup.append ?_ ?_ ?_
    · exact List.Nodup.filter _ (by decide)
    · exact hperm.symm.nodup (List.Nodup.filter _ hobs)
    · intro k hk1 hk2
      rw [hmemP] at hk1
      rw [hmemR] at hk2
      exact hk2.2 hk1.1
  · refine ⟨List.insertionSort strLeRel
      ((observedCols ideas).filter (fun k => decide (k ∉ preferred))),
      normalize_fst ideas, List.sorted_insertionSort strLeRel _, hmemR⟩
  · rw [normalize_snd, List.map_map]
    rfl
  · intro row hrow
    rw [normalize_snd] at hrow
    obtain ⟨r, _, rfl⟩ := List.mem_map.mp hrow
    have hcomp : (Prod.fst ∘ fun k => ((k : String), (jGet r k).getD (JVal.str ""))) = id := rfl
    rw [List.map_map, hcomp, List.map_id]
  · intro idea k h
    rw [h]
    rfl

/-- Witness for c4_schema_and_rows: both the nested column meta.x and
the preferred column id occur in the schema of the demonstration
records. -/
theorem c4_schema_and_rows_witness :
    "meta.x" ∈ (normalize_ideas demoIdeas).1 ∧ "id" ∈ (normalize_ideas demoIdeas).1 := by
  constructor
  · refine ((c4_schema_and_rows demoIdeas).1 "meta.x").mpr
      ⟨[("id", JVal.str "a"), ("meta", JVal.obj [("x", JVal.num 1)])], by simp [demoIdeas],
        ("meta.x", JVal.num 1), ?_, rfl⟩
    simp [flattenIdea, flattenStep, flatten_dict, flatten_go, dUpdate, setKey]
  · refine ((c4_schema_and_rows demoIdeas).1 "id").mpr
      ⟨[("id", JVal.str "a"), ("meta", JVal.obj [("x", JVal.num 1)])], by simp [demoIdeas],
        ("id", JVal.str "a"), ?_, rfl⟩
    simp [flattenIdea, flattenStep, flatten_dict, flatten_go, dUpdate, setKey]

/-- C5 amended: the per-value rules hold for the top-level fields of a
record: a top-level nested mapping is flattened into columns joining
parent and child keys with a dot (at every nesting depth of mappings),
a top-level all-scalar sequence becomes one comma-delimited string
cell, and a top-level sequence containing nested structures becomes one
serialized-JSON string cell; sequences nested inside mappings are not
subject to these rules (see the counterexample). -/
theorem c5_flatten_value_rules :
    (∀ (fs : List (String × JVal)) (parent : String), parent ≠ "" →
      ∀ p ∈ flatten_dict fs parent, ∃ r, p.1 = parent ++ "." ++ r)
    ∧ (∀ (flat : List (String × JVal)) (k : String) (fs : List (String × JVal)),
        flattenStep flat (k, JVal.obj fs) = dUpdate flat (flatten_dict fs k))
    ∧ (∀ (flat : List (String × JVal)) (k : String) (xs : List JVal),
        xs.all isScalar = true →
        flattenStep flat (k, JVal.arr xs)
          = setKey flat k (JVal.str (String.intercalate ", " (xs.map pyStr))))
    ∧ (∀ (flat : List (String × JVal)) (k : String) (xs : List JVal),
        xs.all isScalar = false →
        flattenStep flat (k, JVal.arr xs)
          = setKey flat k (JVal.str (jsonDumps (JVal.arr xs)))) := by
  refine ⟨fun fs parent hpar => flatten_dict_prefix fs parent hpar, ?_, ?_, ?_⟩
  · intro flat k fs
    rfl
  · intro flat k xs h
    simp [flattenStep, h]
  · intro flat k xs h
    simp [flattenStep, h]

/-- Witness for c5_flatten_value_rules: the nested key b under parent a
becomes column a.b, and the tags list of two scalar strings becomes the
single cell p, q. -/
theorem c5_flatten_value_rules_witness :
    (∃ r, ("a.b", JVal.str "Y").1 = "a" ++ "." ++ r)
    ∧ flattenStep [] ("tags", JVal.arr [JVal.str "p", JVal.str "q"])
        = setKey [] "tags" (JVal.str (String.intercalate ", "
            ([JVal.str "p", JVal.str "q"].map pyStr))) := by
  constructor
  · refine c5_flatten_value_rules.1 [("b", JVal.str "Y")] "a" (by decide)
      ("a.b", JVal.str "Y") ?_
    simp [flatten_dict, flatten_go, setKey]
  · exact c5_flatten_value_rules.2.2.1 [] "tags" [JVal.str "p", JVal.str "q"] rfl

/-- C5 counterexample: a scalar sequence nested inside a mapping is
carried through as a raw sequence cell and is not rendered as a
comma-delimited string, so the per-value sequence rule does not hold at
every nesting depth. -/
theorem c5_counterexample :
    jGet (flattenIdea [("a", JVal.obj [("b", JVal.arr [JVal.num 1, JVal.num 2])])]) "a.b"
        = some (JVal.arr [JVal.num 1, JVal.num 2])
    ∧ ∀ s : String, JVal.arr [JVal.num 1, JVal.num 2] ≠ JVal.str s := by
  constructor
  · simp [flattenIdea, flattenStep, flatten_dict, flatten_go, dUpdate, setKey, jGet]
  · intro s h
    exact JVal.noConfusion h

/-- C7: the Identifier Extractor is not total on syntactically valid
JSON: a hits-of-hits payload whose hit carries a non-mapping _source
value raises (AttributeError on the get attribute), embedded here as
the error outcome. -/
theorem c7_extractor_raises :
    extract_canonical_ids_from_search_response
        (JVal.obj [("hits", JVal.obj
          [("hits", JVal.arr [JVal.obj [("_source", JVal.num 5)]])])])
      = .error () := rfl

/-- C10: a record carrying both a scalar field named a.b and a mapping
field a with child b collapses to the single column a.b, keeping
whichever value is processed later in record key order. -/
theorem c10_key_collision :
    flattenIdea [("a.b", JVal.str "X"), ("a", JVal.obj [("b", JVal.str "Y")])]
        = [("a.b", JVal.str "Y")]
    ∧ flattenIdea [("a", JVal.obj [("b", JVal.str "Y")]), ("a.b", JVal.str "X")]
        = [("a.b", JVal.str "X")] := by
  constructor <;>
    simp [flattenIdea, flattenStep, flatten_dict, flatten_go, dUpdate, setKey]
